import Mathlib

/-!
# Verification of the json_schema_compiler `.h` generator

A shallow embedding of `src/tools/json_schema_compiler/h_generator.py`
(class `_Generator` and its helpers).  The namespace/type/property model
(`model.py`), the code-document builder (`code_util.py`) and the naming
helpers (`cpp_util.py`, `schema_util.py`, the C++ type helper) are external
collaborators of this file's source: they are modelled from the spec where
needed, each such definition carrying a `Modelled from the spec:` comment.
Python exceptions are modelled as an explicit error type; stateful
string-document construction is modelled as a pure `Code` value.
-/

namespace HGen

/-- The closed set of type-shape tags (`model.PropertyType`).
Modelled from the spec: the tag set is
\x7bARRAY, STRING, ENUM, OBJECT, CHOICES, REF, ANY, other primitives\x7d. -/
inductive PropertyType where
  | array | string | enum | object | choices | ref | any
  | boolean | integer | int64 | double | binary | function | none
deriving DecidableEq, Repr

/-- Origin flags of a type (`model.Origin`): which serialization methods are
generated.  Modelled from the spec: independent booleans
from_json / from_client / from_manifest_keys. -/
structure Origin where
  from_json : Bool
  from_client : Bool
  from_manifest_keys : Bool
deriving DecidableEq, Repr

mutual
/-- A schema type (`model.Type`).  Modelled from the spec: name, a
`property_type` tag, item type for ARRAY, ordered value names for ENUM,
properties for OBJECT/CHOICES, alternatives for CHOICES, optional
additional-properties type, origin flags, nested functions, and for REF the
referenced type name.  `isRootManifest` models
`Type.IsRootManifestKeyType()` (the namespace's designated root manifest
type). -/
inductive Ty where
  | mk (name unixName : String) (propertyType : PropertyType)
       (description : String) (itemType : Option Ty)
       (enumValues : List String) (properties : List Prop_)
       (choices : List Ty) (additionalProperties : Option Ty)
       (origin : Origin) (functions : List Func) (refType : String)
       (isRootManifest : Bool)

/-- A property (`model.Property`).  Modelled from the spec: name, wire name
vs. declared identifier (`unixName`), owned type, optionality,
description. -/
inductive Prop_ where
  | mk (name unixName : String) (optional : Bool) (description : String)
       (ty : Ty)

/-- A function (`model.Function`): name, parameter properties, optional
asynchronous return. -/
inductive Func where
  | mk (name : String) (params : List Prop_)
       (returnsAsync : Option ReturnsAsync)

/-- An asynchronous return (`model.ReturnsAsync`): result properties. -/
inductive ReturnsAsync where
  | mk (params : List Prop_)
end
mutual

def decEqTy : (a b : Ty) → Decidable (a = b)
  | .mk n1 u1 pt1 d1 it1 ev1 ps1 cs1 ap1 o1 fs1 r1 b1,
    .mk n2 u2 pt2 d2 it2 ev2 ps2 cs2 ap2 o2 fs2 r2 b2 =>
    haveI : Decidable (it1 = it2) := decEqOptTy it1 it2
    haveI : Decidable (ps1 = ps2) := decEqListProp ps1 ps2
    haveI : Decidable (cs1 = cs2) := decEqListTy cs1 cs2
    haveI : Decidable (ap1 = ap2) := decEqOptTy ap1 ap2
    haveI : Decidable (fs1 = fs2) := decEqListFunc fs1 fs2
    decidable_of_iff
      (n1 = n2 ∧ u1 = u2 ∧ pt1 = pt2 ∧ d1 = d2 ∧ it1 = it2 ∧ ev1 = ev2 ∧
        ps1 = ps2 ∧ cs1 = cs2 ∧ ap1 = ap2 ∧ o1 = o2 ∧ fs1 = fs2 ∧
        r1 = r2 ∧ b1 = b2)
      (by rw [Ty.mk.injEq])
  termination_by structural a => a

def decEqOptTy : (a b : Option Ty) → Decidable (a = b)
  | .none, .none => isTrue rfl
  | .none, .some _ => isFalse (by simp)
  | .some _, .none => isFalse (by simp)
  | .some x, .some y =>
    match decEqTy x y with
    | isTrue h => isTrue (by rw [h])
    | isFalse h => isFalse (by simpa using h)
  termination_by structural a => a

def decEqListTy : (a b : List Ty) → Decidable (a = b)
  | [], [] => isTrue rfl
  | [], _ :: _ => isFalse (by simp)
  | _ :: _, [] => isFalse (by simp)
  | x :: xs, y :: ys =>
    match decEqTy x y, decEqListTy xs ys with
    | isTrue h1, isTrue h2 => isTrue (by rw [h1, h2])
    | isFalse h1, _ => isFalse (fun h => by injection h with ha hb; exact h1 ha)
    | _, isFalse h2 => isFalse (fun h => by injection h with ha hb; exact h2 hb)
  termination_by structural a => a

def decEqProp : (a b : Prop_) → Decidable (a = b)
  | .mk n1 u1 o1 d1 t1, .mk n2 u2 o2 d2 t2 =>
    haveI : Decidable (t1 = t2) := decEqTy t1 t2
    decidable_of_iff (n1 = n2 ∧ u1 = u2 ∧ o1 = o2 ∧ d1 = d2 ∧ t1 = t2)
      (by rw [Prop_.mk.injEq])
  termination_by structural a => a

def decEqListProp : (a b : List Prop_) → Decidable (a = b)
  | [], [] => isTrue rfl
  | [], _ :: _ => isFalse (by simp)
  | _ :: _, [] => isFalse (by simp)
  | x :: xs, y :: ys =>
    match decEqProp x y, decEqListProp xs ys with
    | isTrue h1, isTrue h2 => isTrue (by rw [h1, h2])
    | isFalse h1, _ => isFalse (fun h => by injection h with ha hb; exact h1 ha)
    | _, isFalse h2 => isFalse (fun h => by injection h with ha hb; exact h2 hb)
  termination_by structural a => a

def decEqFunc : (a b : Func) → Decidable (a = b)
  | .mk n1 ps1 r1, .mk n2 ps2 r2 =>
    haveI : Decidable (ps1 = ps2) := decEqListProp ps1 ps2
    haveI : Decidable (r1 = r2) := decEqOptRA r1 r2
    decidable_of_iff (n1 = n2 ∧ ps1 = ps2 ∧ r1 = r2)
      (by rw [Func.mk.injEq])
  termination_by structural a => a

def decEqListFunc : (a b : List Func) → Decidable (a = b)
  | [], [] => isTrue rfl
  | [], _ :: _ => isFalse (by simp)
  | _ :: _, [] => isFalse (by simp)
  | x :: xs, y :: ys =>
    match decEqFunc x y, decEqListFunc xs ys with
    | isTrue h1, isTrue h2 => isTrue (by rw [h1, h2])
    | isFalse h1, _ => isFalse (fun h => by injection h with ha hb; exact h1 ha)
    | _, isFalse h2 => isFalse (fun h => by injection h with ha hb; exact h2 hb)
  termination_by structural a => a

def decEqOptRA : (a b : Option ReturnsAsync) → Decidable (a = b)
  | .none, .none => isTrue rfl
  | .none, .some _ => isFalse (by simp)
  | .some _, .none => isFalse (by simp)
  | .some x, .some y =>
    match decEqRA x y with
    | isTrue h => isTrue (by rw [h])
    | isFalse h => isFalse (by simpa using h)
  termination_by structural a => a

def decEqRA : (a b : ReturnsAsync) → Decidable (a = b)
  | .mk ps1, .mk ps2 =>
    haveI : Decidable (ps1 = ps2) := decEqListProp ps1 ps2
    decidable_of_iff (ps1 = ps2) (by rw [ReturnsAsync.mk.injEq])
  termination_by structural a => a

end

instance : DecidableEq Ty := decEqTy
instance : DecidableEq Prop_ := decEqProp
instance : DecidableEq Func := decEqFunc
instance : DecidableEq ReturnsAsync := decEqRA

def Ty.name : Ty → String
  | .mk n _ _ _ _ _ _ _ _ _ _ _ _ => n

def Ty.unixName : Ty → String
  | .mk _ u _ _ _ _ _ _ _ _ _ _ _ => u

def Ty.propertyType : Ty → PropertyType
  | .mk _ _ pt _ _ _ _ _ _ _ _ _ _ => pt

def Ty.description : Ty → String
  | .mk _ _ _ d _ _ _ _ _ _ _ _ _ => d

def Ty.itemType : Ty → Option Ty
  | .mk _ _ _ _ it _ _ _ _ _ _ _ _ => it

def Ty.enumValues : Ty → List String
  | .mk _ _ _ _ _ ev _ _ _ _ _ _ _ => ev

def Ty.properties : Ty → List Prop_
  | .mk _ _ _ _ _ _ ps _ _ _ _ _ _ => ps

def Ty.choices : Ty → List Ty
  | .mk _ _ _ _ _ _ _ cs _ _ _ _ _ => cs

def Ty.additionalProperties : Ty → Option Ty
  | .mk _ _ _ _ _ _ _ _ ap _ _ _ _ => ap

def Ty.origin : Ty → Origin
  | .mk _ _ _ _ _ _ _ _ _ o _ _ _ => o

def Ty.functions : Ty → List Func
  | .mk _ _ _ _ _ _ _ _ _ _ fs _ _ => fs

def Ty.refType : Ty → String
  | .mk _ _ _ _ _ _ _ _ _ _ _ r _ => r

def Ty.isRootManifest : Ty → Bool
  | .mk _ _ _ _ _ _ _ _ _ _ _ _ b => b

def Prop_.name : Prop_ → String
  | .mk n _ _ _ _ => n

def Prop_.unixName : Prop_ → String
  | .mk _ u _ _ _ => u

def Prop_.optional : Prop_ → Bool
  | .mk _ _ o _ _ => o

def Prop_.description : Prop_ → String
  | .mk _ _ _ d _ => d

def Prop_.ty : Prop_ → Ty
  | .mk _ _ _ _ t => t

def Func.name : Func → String
  | .mk n _ _ => n

def Func.params : Func → List Prop_
  | .mk _ ps _ => ps

def Func.returnsAsync : Func → Option ReturnsAsync
  | .mk _ _ r => r

def ReturnsAsync.params : ReturnsAsync → List Prop_
  | .mk ps => ps

/-- Errors of a generation pass, modelling the Python exceptions that can
escape `_Generator.Generate`:
* `circular` — the `ValueError` raised by `_FieldDependencyOrder` (the
  spec's `CircularDependencyError`), carrying the full message;
* `keyError` — a failed dictionary lookup (`namespace.types[...]`);
* `unboundLocal` — reading a local variable never assigned
  (`current_enum_string` when an enum has no values);
* `assertionFailure` — a failed `assert`;
* `missingAttribute` — a model field that the model invariants promise is
  present (e.g. `item_type` of an ARRAY) being absent;
* `fuelExhausted` — recursion-depth fuel of the embedding running out,
  proved unreachable below. -/
inductive GenError where
  | circular (msg : String)
  | keyError (key : String)
  | unboundLocal (name : String)
  | assertionFailure
  | missingAttribute (name : String)
  | fuelExhausted
deriving DecidableEq, Repr

instance {e a : Type} [DecidableEq e] [DecidableEq a] : DecidableEq (Except e a) :=
  fun x y =>
  match x, y with
  | .ok u, .ok v =>
    if h : u = v then isTrue (by rw [h]) else isFalse (by simpa using h)
  | .error u, .error v =>
    if h : u = v then isTrue (by rw [h]) else isFalse (by simpa using h)
  | .ok _, .error _ => isFalse (by simp)
  | .error _, .ok _ => isFalse (by simp)

/-- A line of output at indentation `ind`: blank lines stay blank (the
builder right-strips), other lines get `ind` leading spaces. -/
def indentLine (ind : Nat) (line : String) : String :=
  if line = "" then "" else String.mk (List.replicate ind ' ') ++ line

/-- Join strings with a separator (Python's `sep.join`). -/
def joinSep (sep : String) : List String → String
  | [] => ""
  | [x] => x
  | x :: xs => x ++ sep ++ joinSep sep xs

/-- Split a character list on a separator occurrence; `skip` counts
separator characters still being consumed. -/
def splitAux (sep : List Char) : Nat → List Char → List (List Char)
  | _, [] => [[]]
  | n + 1, _ :: rest => splitAux sep n rest
  | 0, c :: rest =>
    if sep.isPrefixOf (c :: rest) then
      [] :: splitAux sep (sep.length - 1) rest
    else
      match splitAux sep 0 rest with
      | [] => [[c]]
      | chunk :: more => (c :: chunk) :: more

/-- Split a string on a separator (Python's `str.split(sep)`). -/
def strSplit (s sep : String) : List String :=
  (splitAux sep.data 0 s.data).map String.mk

/-- Upper-case the first character (one segment of `cpp_util.Classname`). -/
def capitalizeStr (s : String) : String :=
  match s.data with
  | [] => ""
  | c :: rest => String.mk (c.toUpper :: rest)

/-- Upper-case every character. -/
def upperStr (s : String) : String := String.mk (s.data.map Char.toUpper)

/-- Modelled from the spec: the Code Document Builder (`code_util.Code`,
not under src/) — a structured text-assembly primitive with nested
indentation scopes and named placeholder substitution. -/
structure Code where
  lines : List String
  indent : Nat
deriving DecidableEq, Repr

/-- Replace every occurrence of `key` in a character list by `val`
(the builder's placeholder substitution); `skip` counts matched characters
still being consumed. -/
def replaceAux (key val : List Char) : Nat → List Char → List Char
  | _, [] => []
  | n + 1, _ :: rest => replaceAux key val n rest
  | 0, c :: rest =>
    if key.isPrefixOf (c :: rest) then
      val ++ replaceAux key val (key.length - 1) rest
    else c :: replaceAux key val 0 rest

/-- Replace every occurrence of `key` in a character list by `val`. -/
def replaceChars (key val : List Char) (l : List Char) : List Char :=
  replaceAux key val 0 l

/-- Replace every `%(key)s` placeholder in `line` by `val`. -/
def substLine (key val line : String) : String :=
  String.mk (replaceChars ("%(" ++ key ++ ")s").data val.data line.data)

namespace Code

def empty : Code := ⟨[], 0⟩

/-- `Code.Append(line)`: add one line at the current indentation. -/
def append (c : Code) (line : String) : Code :=
  { c with lines := c.lines ++ [indentLine c.indent line] }

/-- `Code.Sblock(line)`: append `line`, then increase the indentation. -/
def sblock (c : Code) (line : String) : Code :=
  { lines := c.lines ++ [indentLine c.indent line], indent := c.indent + 2 }

/-- `Code.Eblock(line)`: decrease the indentation, then append `line`. -/
def eblock (c : Code) (line : String) : Code :=
  { lines := c.lines ++ [indentLine (c.indent - 2) line], indent := c.indent - 2 }

/-- `Code.Eblock()` with no line: just decrease the indentation. -/
def eblockNone (c : Code) : Code :=
  { c with indent := c.indent - 2 }

/-- `Code.Concat(other)`: splice another builder's lines at the current
indentation, leaving the indentation context unchanged. -/
def concat (c other : Code) : Code :=
  { c with lines := c.lines ++ other.lines.map (indentLine c.indent) }

/-- Rendered text: lines joined by newlines. -/
def render (c : Code) : String := joinSep "\n" c.lines

/-- `Code.Cblock(other)`: concatenate `other` followed by a blank line,
if `other` renders non-empty. -/
def cblock (c other : Code) : Code :=
  if other.render = "" then c else (c.concat other).append ""

/-- `Code.Comment(text)`: append a `//` comment line.  Modelled from the
spec without the line-wrapping of long comments. -/
def comment (c : Code) (text : String) : Code :=
  c.append ("// " ++ text)

/-- `Code.Substitute(\x7b'key': value\x7d)`: replace the named placeholder
in every previously appended line. -/
def substitute (c : Code) (key value : String) : Code :=
  { c with lines := c.lines.map (substLine key value) }

end Code

/-- Modelled from the spec: `cpp_util.CHROMIUM_LICENSE`, the fixed license
header block (one appended chunk). -/
def CHROMIUM_LICENSE : String :=
  "// Copyright 2012 The Chromium Authors\n// Use of this source code is governed by a BSD-style license that can be\n// found in the LICENSE file."

/-- Modelled from the spec: `cpp_util.GENERATED_FILE_MESSAGE % path`. -/
def GENERATED_FILE_MESSAGE (source : String) : String :=
  "// GENERATED FROM THE API DEFINITION IN\n//   " ++ source ++ "\n// DO NOT EDIT."

/-- Modelled from the spec: `cpp_util.ToPosixPath` (backslashes to
slashes). -/
def ToPosixPath (p : String) : String :=
  String.mk (p.data.map (fun ch => if ch = '\\' then '/' else ch))

/-- Modelled from the spec: `os.path.splitext(p)[0]` — the path with its
final extension removed. -/
def splitextRoot (p : String) : String :=
  let parts := strSplit p "."
  if parts.length ≤ 1 then p else joinSep "." parts.dropLast

/-- Modelled from the spec: `cpp_util.GenerateIfndefName`, the
inclusion-guard token derived from the output file path. -/
def GenerateIfndefName (path : String) : String :=
  String.mk ((path ++ "__").data.map
    (fun ch => if ch.isAlphanum then ch.toUpper else '_'))

/-- Modelled from the spec: `cpp_util.Classname`, the
identifier→declaration-style-name helper (capitalises each dot-separated
segment and joins with underscores). -/
def Classname (s : String) : String :=
  joinSep "_" ((strSplit s ".").map capitalizeStr)

/-- Modelled from the spec: `schema_util.StripNamespace` (text after the
last dot). -/
def StripNamespace (s : String) : String :=
  (strSplit s ".").getLastD s

/-- Modelled from the spec: `schema_util.GetNamespace` (the namespace
qualifier of a dotted reference name, `none` when the name is
unqualified). -/
def GetNamespace (ref : String) : Option String :=
  let parts := strSplit ref "."
  if parts.length ≤ 1 then none
  else some (joinSep "." parts.dropLast)

/-- Modelled from the spec: `cpp_util.GetCppNamespace(pattern, unix_name)`
— the configured pattern with `%s` replaced by the namespace's normalized
name. -/
def GetCppNamespace (pattern unix : String) : String :=
  String.mk (replaceChars "%s".data unix.data pattern.data)

/-- Modelled from the spec: `cpp_util.OpenNamespace` — one
`namespace X \x7b` line per `::`-separated component. -/
def OpenNamespace (cppNs : String) : Code :=
  (strSplit cppNs "::").foldl
    (fun c comp => c.append ("namespace " ++ comp ++ " \x7b")) Code.empty

/-- Modelled from the spec: `cpp_util.CloseNamespace` — closing braces in
reverse component order. -/
def CloseNamespace (cppNs : String) : Code :=
  ((strSplit cppNs "::").reverse).foldl
    (fun c comp => c.append ("\x7d  // namespace " ++ comp)) Code.empty

/-- Modelled from the spec: `cpp_util.UnixNameToConstantName` (constant
name derived from a wire name). -/
def UnixNameToConstantName (u : String) : String :=
  "k" ++ joinSep "" ((strSplit u "_").map capitalizeStr)

/-- Modelled from the spec: the C++ type helper's
`GetCppType` (cpp_type_generator, not under src/) — a deterministic, total
rendering of a type's C++ name.  REF renders as the referenced declared
type's class name; ARRAY as a sequence of the item type; ANY as the generic
dynamic value representation `base::Value`. -/
def GetCppType : Ty → String
  | .mk _ _ .array _ (some it) _ _ _ _ _ _ _ _ =>
      "std::vector<" ++ GetCppType it ++ " >"
  | .mk _ _ .array _ none _ _ _ _ _ _ _ _ => "std::vector<base::Value >"
  | .mk _ _ .string _ _ _ _ _ _ _ _ _ _ => "std::string"
  | .mk _ _ .boolean _ _ _ _ _ _ _ _ _ _ => "bool"
  | .mk _ _ .integer _ _ _ _ _ _ _ _ _ _ => "int"
  | .mk _ _ .int64 _ _ _ _ _ _ _ _ _ _ => "int64_t"
  | .mk _ _ .double _ _ _ _ _ _ _ _ _ _ => "double"
  | .mk _ _ .binary _ _ _ _ _ _ _ _ _ _ => "std::vector<uint8_t>"
  | .mk _ _ .any _ _ _ _ _ _ _ _ _ _ => "base::Value"
  | .mk _ _ .function _ _ _ _ _ _ _ _ _ _ => "base::Value::Dict"
  | .mk _ _ .none _ _ _ _ _ _ _ _ _ _ => "base::Value"
  | .mk _ _ .ref _ _ _ _ _ _ _ _ r _ => Classname (StripNamespace r)
  | .mk n _ .enum _ _ _ _ _ _ _ _ _ _ => Classname (StripNamespace n)
  | .mk n _ .object _ _ _ _ _ _ _ _ _ _ => Classname (StripNamespace n)
  | .mk n _ .choices _ _ _ _ _ _ _ _ _ _ => Classname (StripNamespace n)

/-- Modelled from the spec: `GetCppType` with the `is_optional` flag — the
optional-typed rendering of a property's type. -/
def GetCppTypeOpt (t : Ty) (isOptional : Bool) : String :=
  if isOptional then "absl::optional<" ++ GetCppType t ++ ">" else GetCppType t

/-- Modelled from the spec: the reserved zero/"none" sentinel member name
of an enum (`GetEnumNoneValue`). -/
def GetEnumNoneValue (_t : Ty) : String := "NONE"

/-- Modelled from the spec: the member name for a declared enum value
(`GetEnumValue`). -/
def GetEnumValue (_t : Ty) (value : String) : String := upperStr value

/-- Modelled from the spec: the generic "last" trailing member name of a
plain (non-modernised) enum (`GetEnumLastValue`). -/
def GetEnumLastValue (_t : Ty) : String := "LAST"

/-- Modelled from the spec: `GetOptionalReturnType` — the
result-with-error convention when `generate_error_messages` is set, else
the plain optional convention. -/
def GetOptionalReturnType (classname : String) (supportErrors : Bool) : String :=
  if supportErrors then "base::expected<" ++ classname ++ ", std::u16string>"
  else "absl::optional<" ++ classname ++ ">"

/-- Modelled from the spec: the type helper's `GenerateIncludes` — the
dependency-include block computed by the external collaborator.  Its
contents depend on cross-namespace information outside this model, and no
claim depends on them, so it is modelled as the empty block. -/
def GenerateIncludes (_includeSoft _genErrMsgs : Bool) : Code := Code.empty

/-- Modelled from the spec: the type helper's
`GenerateForwardDeclarations` — forward declarations for the two
hard-reference namespaces; contents likewise outside this model. -/
def GenerateForwardDeclarations : Code := Code.empty

/-- Modelled from the spec: `cpp_util.GetParameterDeclaration(param, t)` —
the rendering of one declared parameter. -/
def GetParameterDeclaration (p : Prop_) (cppType : String) : String :=
  cppType ++ " " ++ p.unixName

/-- Modelled from the spec: the type helper's `GeneratePropertyValues` —
one constant declaration per namespace-level property, filling the
`%(type)s` and `%(name)s` placeholders of the given format.  (The real
collaborator emits nothing for properties without a fixed value; the model
always emits.) -/
def GeneratePropertyValues (p : Prop_) (fmt : String) : Code :=
  Code.empty.append (substLine "type" (GetCppType p.ty) (substLine "name" p.unixName fmt))

/-- `_GenerateParams(params, generate_error_messages, error_as_ptr)`:
the parameter list of a generated method, with the error out-parameter
appended when error messages are generated. -/
def GenerateParams (genErrMsgs errorAsPtr : Bool) (params : List String) : String :=
  let params :=
    if genErrMsgs then
      params ++ [if errorAsPtr then "std::u16string* error" else "std::u16string& error"]
    else params
  joinSep ", " params

/-- One iteration of the loop of `_GenerateEnumDeclaration` over the
declared values: append the member line and assign `current_enum_string`. -/
def enumStep (t : Ty) (st : Code × Option String) (v : String) :
    Code × Option String :=
  let s := GetEnumValue t v
  (st.1.append (s ++ ","), some s)

/-- `_GenerateEnumDeclaration(enum_name, type_)`: the declaration of a C++
enum.  The loop variable `current_enum_string` is modelled by an
`Option String` starting unassigned; reading it after a loop over an empty
value sequence is Python's `UnboundLocalError`. -/
def GenerateEnumDeclaration (modernised : Bool) (enumName : String) (t : Ty) :
    Except GenError Code :=
  let c := Code.empty.sblock
    ("enum " ++ (if modernised then "class" else "") ++ " " ++ enumName ++ " \x7b")
  let c := c.append (GetEnumNoneValue t ++ " = 0,")
  let st := t.enumValues.foldl (enumStep t) (c, none)
  match st.2 with
  | none => .error (.unboundLocal "current_enum_string")
  | some last =>
    let c :=
      if modernised then st.1.append ("kMaxValue = " ++ last ++ ",")
      else st.1.append (GetEnumLastValue t ++ " = " ++ last ++ ",")
    .ok (c.eblock "\x7d;")

/-- `_GenerateFields(props)`: the field declarations of a struct, with a
blank separator before every field but the first and a comment for each
described property. -/
def GenerateFields (props : List Prop_) : Code :=
  (props.foldl
    (fun (st : Code × Bool) p =>
      let c := if st.2 then st.1.append "" else st.1
      let c := if p.description ≠ "" then c.comment p.description else c
      (c.append (GetCppTypeOpt p.ty p.optional ++ " " ++ p.unixName ++ ";"), true))
    (Code.empty, false)).1

/-- `_GenerateManifestKeyConstants(properties)`: one string constant per
manifest property, named from the property's wire name. -/
def GenerateManifestKeyConstants (props : List Prop_) : Code :=
  props.foldl
    (fun c p =>
      c.append ("static constexpr char " ++ UnixNameToConstantName p.unixName ++
        "[] = \"" ++ p.name ++ "\";"))
    Code.empty

/-- `_GenerateParseFromDictionary(type_, classname)`: the
`ParseFromDictionary` method declaration; the root manifest type omits the
`key` and `error_path_reversed` parameters. -/
def GenerateParseFromDictionary (t : Ty) (classname : String) : Code :=
  let st :=
    if t.isRootManifest then
      (["const base::Value::Dict& root_dict", classname ++ "& out",
        "std::u16string& error"],
       "Parses manifest keys for this namespace. Any keys not available to the manifest will be ignored. On a parsing error, false is returned and |error| is populated.")
    else
      (["const base::Value::Dict& root_dict", "base::StringPiece key",
        classname ++ "& out", "std::u16string& error",
        "std::vector<base::StringPiece>& error_path_reversed"],
       "Parses the given |key| from |root_dict|. Any keys not available to the manifest will be ignored. On a parsing error, false is returned and |error| and |error_path_reversed| are populated.")
  ((Code.empty.append "").comment st.2).append
    ("static bool ParseFromDictionary(" ++ GenerateParams false false st.1 ++ ");")

/-- An event (`model.Event`): name and parameter properties. -/
structure Event where
  name : String
  params : List Prop_
deriving DecidableEq

/-- Recognized compiler options of a namespace.  Modelled from the spec:
`generate_error_messages : bool`, `modernised_enums : bool`. -/
structure CompilerOptions where
  generate_error_messages : Bool
  modernised_enums : Bool
deriving DecidableEq

/-- A namespace (`model.Namespace`), as read by the generator: name,
originating source file, ordered property list, ordered name→type mapping,
optional manifest-keys type, ordered functions and events, options, and the
environment's namespace pattern. -/
structure Namespace where
  name : String
  unix_name : String
  source_file : String
  properties : List Prop_
  types : List (String × Ty)
  manifest_keys : Option Ty
  functions : List Func
  events : List Event
  compiler_options : CompilerOptions
  namespace_pattern : String
deriving DecidableEq

/-- The opening of an OBJECT/CHOICES struct declaration in
`_GenerateType`: optional description comment, the `struct` header, default
construction/destruction, deleted copy construction/assignment and declared
move construction/assignment, in source order. -/
def structOpenBlock (desc : String) : Code :=
  let c := if desc ≠ "" then Code.empty.comment desc else Code.empty
  ((((((c.sblock "struct %(classname)s \x7b").append
    "%(classname)s();").append
    "~%(classname)s();").append
    "%(classname)s(const %(classname)s&) = delete;").append
    "%(classname)s& operator=(const %(classname)s&) = delete;").append
    "%(classname)s(%(classname)s&& rhs);").append
    "%(classname)s& operator=(%(classname)s&& rhs);"

/-- The manifest-key constants block of `_GenerateType`, emitted when the
type's origin is `from_manifest_keys`. -/
def manifestConstantsBlock (origin : Origin) (props : List Prop_) (c : Code) :
    Code :=
  if origin.from_manifest_keys then
    ((c.append "").comment "Manifest key constants.").concat
      (GenerateManifestKeyConstants props)
  else c

/-- The `from_json` method block of `_GenerateType`: `Populate` overloads,
`Clone`, the top-level `FromValueDeprecated` legacy factory and the
`FromValue` factories. -/
def fromJsonBlock (fromJson genErrMsgs isChoices isToplevel : Bool)
    (classname : String) (c : Code) : Code :=
  if fromJson then
    let c := ((c.append "").comment
      ("Populates a " ++ classname ++
        " object from a base::Value& instance. Returns whether |out| was successfully populated.")).append
      ("static bool Populate(" ++
        GenerateParams genErrMsgs false
          ["const base::Value& value", classname ++ "& out"] ++ ");")
    let c :=
      if !isChoices then
        ((c.append "").comment
          ("Populates a " ++ classname ++
            " object from a Dict& instance. Returns whether |out| was successfully populated.")).append
          ("static bool Populate(" ++
            GenerateParams genErrMsgs false
              ["const base::Value::Dict& value", classname ++ "& out"] ++ ");")
      else c
    let c := ((c.append "").comment
      ("Creates a deep copy of " ++ classname ++ ".")).append
      (classname ++ " Clone() const;")
    let c :=
      if isToplevel then
        ((c.append "").comment
          ("Creates a " ++ classname ++
            " object from a base::Value, or NULL on failure.")).append
          ("static std::unique_ptr<" ++ classname ++ "> FromValueDeprecated(" ++
            GenerateParams genErrMsgs true ["const base::Value& value"] ++ ");")
      else c
    let returnType := GetOptionalReturnType classname genErrMsgs
    let failureWord := if genErrMsgs then "unexpected" else "nullopt"
    let c :=
      if !isChoices then
        ((c.append "").comment
          ("Creates a " ++ classname ++
            " object from a base::Value::Dict, or " ++ failureWord ++
            " on failure.")).append
          ("static " ++ returnType ++ " FromValue(const base::Value::Dict& value);")
      else c
    ((c.append "").comment
      ("Creates a " ++ classname ++ " object from a base::Value, or " ++
        failureWord ++ " on failure.")).append
      ("static " ++ returnType ++ " FromValue(const base::Value& value);")
  else c

/-- The `from_client` serialization block of `_GenerateType`. -/
def fromClientBlock (fromClient : Bool) (valueType classname : String)
    (c : Code) : Code :=
  if fromClient then
    ((c.append "").comment
      ("Returns a new " ++ valueType ++
        " representing the serialized form of this" ++ classname ++
        " object.")).append (valueType ++ " ToValue() const;")
  else c

/-- The `// Choices:` marker and one optional-typed field per alternative,
named after that alternative, in `_GenerateType`'s CHOICES branch. -/
def choicesFields (choiceList : List Ty) (c : Code) : Code :=
  choiceList.foldl
    (fun c ch => c.append (GetCppTypeOpt ch true ++ " as_" ++ ch.unixName ++ ";"))
    (c.append "// Choices:")

/-- The adjacent free functions of `_GenerateType`'s ENUM branch:
enum→string, fallible string→enum, and string→parse-error. -/
def enumFunctionsBlock (isToplevel : Bool) (classname : String) (c : Code) :
    Code :=
  let maybeStatic := if isToplevel then "" else "static "
  (((c.append "").append
    (maybeStatic ++ "const char* ToString(" ++ classname ++ " as_enum);")).append
    (maybeStatic ++ classname ++ " Parse" ++ classname ++
      "(base::StringPiece as_string);")).append
    (maybeStatic ++ "std::u16string Get" ++ classname ++
      "ParseError(base::StringPiece as_string);")

/-- The namespace wrapping of a type with nested functions in
`_GenerateType`. -/
def typeFunctionsWrap (classname : String) (cf : Code) : Code :=
  (((Code.empty.append ("namespace " ++ classname ++ " \x7b")).append
    "").concat cf).append ("\x7d  // namespace " ++ classname)

/-- The ARRAY branch of `_GenerateType`, given the already generated
declaration `ci` of the item type. -/
def assembleArray (classname desc : String) (generateTypedefs : Bool)
    (it : Ty) (ci : Code) : Code :=
  let c := if generateTypedefs && desc ≠ "" then
    Code.empty.comment desc else Code.empty
  let c := c.cblock ci
  if generateTypedefs then
    let itemCppType := GetCppType it
    if itemCppType ≠ "base::Value" then
      c.append ("using " ++ classname ++ " = std::vector<" ++ itemCppType ++ " >;")
    else
      c.append ("using " ++ classname ++ " = base::Value::List;")
  else c

/-- The STRING branch of `_GenerateType`. -/
def assembleString (desc : String) (generateTypedefs : Bool) : Code :=
  if generateTypedefs then
    (if desc ≠ "" then Code.empty.comment desc else Code.empty).append
      "using %(classname)s = std::string;"
  else Code.empty

/-- The ENUM branch of `_GenerateType`, given the generated enum
declaration `ce`. -/
def assembleEnum (isToplevel : Bool) (classname desc : String) (ce : Code) :
    Code :=
  enumFunctionsBlock isToplevel classname
    ((if desc ≠ "" then Code.empty.comment desc else Code.empty).cblock ce)

/-- The shared prefix of the OBJECT/CHOICES branch of `_GenerateType`:
struct opening, manifest constants, `from_json`, `from_client` and
manifest-parsing method blocks, in source order. -/
def structPrefix (opts : CompilerOptions) (t : Ty)
    (isChoices isToplevel : Bool) (classname : String) : Code :=
  let c := structOpenBlock t.description
  let c := manifestConstantsBlock t.origin t.properties c
  let valueType := if isChoices then "base::Value" else "base::Value::Dict"
  let c := fromJsonBlock t.origin.from_json opts.generate_error_messages
    isChoices isToplevel classname c
  let c := fromClientBlock t.origin.from_client valueType classname c
  if t.origin.from_manifest_keys then
    c.cblock (GenerateParseFromDictionary t classname)
  else c

/-- The CHOICES branch of `_GenerateType`, given the generated declarations
`cc` of the alternatives. -/
def assembleChoices (opts : CompilerOptions) (t : Ty) (isToplevel : Bool)
    (classname : String) (cc : Code) : Code :=
  (choicesFields t.choices
    ((structPrefix opts t true isToplevel classname).cblock cc)).eblock "\x7d;"

/-- The OBJECT branch of `_GenerateType`, given the generated declarations
`ct` of the property types and, when the additional-properties type is
non-generic, its generated declaration `cap`. -/
def assembleObject (opts : CompilerOptions) (t : Ty) (isToplevel : Bool)
    (classname : String) (ct : Code) (cap : Option Code) : Code :=
  let c := structPrefix opts t false isToplevel classname
  let c := ((c.append "").cblock ct).cblock (GenerateFields t.properties)
  let c :=
    match t.additionalProperties with
    | none => c
    | some ap =>
      if ap.propertyType = PropertyType.any then
        c.append "base::Value::Dict additional_properties;"
      else
        (c.cblock (cap.getD Code.empty)).append
          ("std::map<std::string, " ++ GetCppType ap ++ "> additional_properties;")
  c.eblock "\x7d;"

/-- The opening of the `Params` struct in `_GenerateFunctionParams`:
`Create` factories (the result-with-error overload first when error
messages are generated), deleted copy, declared move, destruction, and a
blank separator. -/
def paramsStructHeader (genErrMsgs : Bool) : Code :=
  let c := Code.empty.sblock "struct Params \x7b"
  let c :=
    if genErrMsgs then
      (c.append
        "static base::expected<Params, std::u16string> Create(const base::Value::List& args);").comment
        "DEPRECATED: prefer the variant of this function returning errors with `base::expected`."
    else c
  ((((((c.append
    ("static absl::optional<Params> Create(" ++
      GenerateParams genErrMsgs false ["const base::Value::List& args"] ++ ");")).append
    "Params(const Params&) = delete;").append
    "Params& operator=(const Params&) = delete;").append
    "Params(Params&& rhs);").append
    "Params& operator=(Params&& rhs);").append
    "~Params();").append ""

/-- The closing of the `Params` struct: the private default constructor. -/
def paramsStructFooter (c : Code) : Code :=
  (((c.eblockNone.append "").sblock " private:").append "Params();").eblock "\x7d;"

mutual

/-- `_GenerateType(type_, is_toplevel, generate_typedefs)`: one declaration
for `type_`, dispatching on its `property_type` tag; tags with no matching
branch fall through and produce no output. -/
def GenerateType (opts : CompilerOptions) (t : Ty)
    (isToplevel generateTypedefs : Bool) : Except GenError Code := do
  match t with
  | .mk tname _ pt desc itemType _ props choiceList addProps _ funcs _ _ =>
    let classname := Classname (StripNamespace tname)
    let c ←
      if funcs ≠ [] then do
        let cf ← GenerateFuncs opts funcs
        pure (typeFunctionsWrap classname cf)
      else
        match pt with
        | .array =>
          match itemType with
          | none => throw (.missingAttribute "item_type")
          | some it => do
            let ci ← GenerateType opts it isToplevel false
            pure (assembleArray classname desc generateTypedefs it ci)
        | .string => pure (assembleString desc generateTypedefs)
        | .enum => do
          let ce ← GenerateEnumDeclaration opts.modernised_enums classname t
          pure (assembleEnum isToplevel classname desc ce)
        | .choices => do
          let cc ← GenerateTypes opts choiceList false false
          pure (assembleChoices opts t isToplevel classname cc)
        | .object => do
          let ct ← GenerateTypesOfProps opts props false false
          let cap ←
            match addProps with
            | some ap =>
              if ap.propertyType = PropertyType.any then pure Option.none
              else do
                let cap ← GenerateType opts ap false false
                pure (some cap)
            | none => pure Option.none
          pure (assembleObject opts t isToplevel classname ct cap)
        | _ => pure Code.empty
    pure (c.substitute "classname" classname)
  termination_by (sizeOf t, 0)

/-- `_GenerateTypes(types, ...)`: the block of declarations of a list of
types, each followed by a blank separator. -/
def GenerateTypes (opts : CompilerOptions) (ts : List Ty)
    (isToplevel generateTypedefs : Bool) : Except GenError Code := do
  match ts with
  | [] => pure Code.empty
  | t :: rest => do
    let ct ← GenerateType opts t isToplevel generateTypedefs
    let crest ← GenerateTypes opts rest isToplevel generateTypedefs
    pure ((Code.empty.cblock ct).concat crest)
  termination_by (sizeOf ts, 1)

/-- `_GenerateTypes(p.type_ for p in props)`: the declarations of the types
of a list of properties. -/
def GenerateTypesOfProps (opts : CompilerOptions) (ps : List Prop_)
    (isToplevel generateTypedefs : Bool) : Except GenError Code := do
  match ps with
  | [] => pure Code.empty
  | .mk _ _ _ _ ty :: rest => do
    let ct ← GenerateType opts ty isToplevel generateTypedefs
    let crest ← GenerateTypesOfProps opts rest isToplevel generateTypedefs
    pure ((Code.empty.cblock ct).concat crest)
  termination_by (sizeOf ps, 0)

/-- The loop `for function in …: c.Cblock(_GenerateFunction(function))`. -/
def GenerateFuncs (opts : CompilerOptions) (fs : List Func) :
    Except GenError Code := do
  match fs with
  | [] => pure Code.empty
  | f :: rest => do
    let cf ← GenerateFunction opts f
    let crest ← GenerateFuncs opts rest
    pure ((Code.empty.cblock cf).concat crest)
  termination_by (sizeOf fs, 0)

/-- `_GenerateFunction(function)`: the named scope of one function, with
its `Params` struct and optional `Results` scope.  The `SendMessage`
identifier is reserved and replaced by `PassMessage`. -/
def GenerateFunction (opts : CompilerOptions) (f : Func) :
    Except GenError Code := do
  match f with
  | .mk fname params returnsAsync =>
    let functionNamespace := Classname fname
    let functionNamespace :=
      if functionNamespace = "SendMessage" then "PassMessage" else functionNamespace
    let cp ← GenerateFunctionParams opts (.mk fname params returnsAsync)
    let c := ((Code.empty.append
      ("namespace " ++ functionNamespace ++ " \x7b")).append "").cblock cp
    let c ←
      match returnsAsync with
      | none => pure c
      | some ra => do
        let cr ← GenerateFunctionResults opts ra
        pure (c.cblock cr)
    pure (c.append ("\x7d  // namespace " ++ functionNamespace))
  termination_by (sizeOf f, 1)

/-- `_GenerateFunctionParams(function)`: the `Params` struct of a function,
empty when the function has no parameters. -/
def GenerateFunctionParams (opts : CompilerOptions) (f : Func) :
    Except GenError Code := do
  match f with
  | .mk _ params _ =>
    if params = [] then pure Code.empty
    else do
      let c := paramsStructHeader opts.generate_error_messages
      let ct ← GenerateTypesOfProps opts params false false
      pure (paramsStructFooter ((c.cblock ct).cblock (GenerateFields params)))
  termination_by (sizeOf f, 0)

/-- `_GenerateFunctionResults(returns_async)`: the `Results` scope of an
asynchronous return. -/
def GenerateFunctionResults (opts : CompilerOptions) (ra : ReturnsAsync) :
    Except GenError Code := do
  match ra with
  | .mk params => do
    let car ← GenerateAsyncResponseArguments opts params
    pure ((((Code.empty.append "namespace Results \x7b").append "").concat
      car).append "\x7d  // namespace Results")
  termination_by (sizeOf ra, 2)

/-- `_GenerateAsyncResponseArguments(params)`: nested declarations of all
parameter types, then the single response-argument-builder function. -/
def GenerateAsyncResponseArguments (opts : CompilerOptions) (ps : List Prop_) :
    Except GenError Code := do
  let ct ← GenerateTypesOfProps opts ps true false
  let c := Code.empty.cblock ct
  let st := ps.foldl
    (fun (acc : Code × List String) p =>
      let c := if p.description ≠ "" then acc.1.comment p.description else acc.1
      (c, acc.2 ++ [GetParameterDeclaration p (GetCppType p.ty)]))
    (c, [])
  pure (st.1.append
    ("base::Value::List Create(" ++ joinSep ", " st.2 ++ ");"))
  termination_by (sizeOf ps, 1)

end

/-- `_GenerateEventNameConstant(event)`: the externally visible event name
constant, documented inline as `"<namespace>.<event>"`. -/
def GenerateEventNameConstant (nsName : String) (e : Event) : Code :=
  (Code.empty.append
    ("extern const char kEventName[];  // \"" ++ nsName ++ "." ++ e.name ++ "\"")).append ""

/-- `_GenerateEvent(event)`: the named scope of one event. -/
def GenerateEvent (opts : CompilerOptions) (nsName : String) (e : Event) :
    Except GenError Code := do
  let eventNamespace := Classname e.name
  let car ← GenerateAsyncResponseArguments opts e.params
  pure (((((Code.empty.append ("namespace " ++ eventNamespace ++ " \x7b")).append
    "").concat (GenerateEventNameConstant nsName e)).concat car).append
    ("\x7d  // namespace " ++ eventNamespace))

/-- The loop `for event in …: c.Cblock(_GenerateEvent(event))`. -/
def GenerateEvents (opts : CompilerOptions) (nsName : String) (es : List Event) :
    Except GenError Code :=
  match es with
  | [] => pure Code.empty
  | e :: rest => do
    let ce ← GenerateEvent opts nsName e
    let crest ← GenerateEvents opts nsName rest
    pure ((Code.empty.cblock ce).concat crest)

/-- The values of the namespace's ordered type mapping. -/
def typeValues (ns : Namespace) : List Ty := ns.types.map Prod.snd

/-- `namespace.types[key]`, as an `Option`. -/
def lookupType (ns : Namespace) (key : String) : Option Ty :=
  (ns.types.find? (fun kv => kv.1 == key)).map Prod.snd

/-- Does this property trigger same-namespace REF expansion in
`_FieldDependencyOrder`?  (`prop.type_ == PropertyType.REF and
schema_util.GetNamespace(prop.ref_type) == self._namespace.name`.) -/
def isSameNsRef (ns : Namespace) (p : Prop_) : Bool :=
  p.ty.propertyType == PropertyType.ref &&
    GetNamespace p.ty.refType == some ns.name

/-- The message of the circular-dependency error, listing the expansion
path's type names in visitation order. -/
def cycleMessage (path : List Ty) : String :=
  "Illegal circular dependency via cycle " ++
    joinSep ", " (path.map Ty.name)

/-- The body of `ExpandType`'s loop over one property: a same-namespace REF
property is resolved in the type table (a miss is Python's `KeyError`) and
its target expanded by `rec`; any other property leaves the accumulator
unchanged. -/
def expandStep (ns : Namespace)
    (rec : Ty → List Ty → Except GenError (List Ty))
    (acc : List Ty) (p : Prop_) : Except GenError (List Ty) :=
  if isSameNsRef ns p then
    match lookupType ns p.ty.refType with
    | some d => rec d acc
    | none => .error (.keyError p.ty.refType)
  else pure acc

/-- `ExpandType(path, type_)` of `_FieldDependencyOrder`: depth-first
expansion carrying the current path; a type already on the path raises the
circular-dependency error; otherwise each same-namespace REF property
target is expanded in property order and the type is appended once.
Recursion through the namespace's type table is bounded by explicit fuel;
`FieldDependencyOrder` supplies enough fuel, and `fuelExhausted` is proved
unreachable below. -/
def ExpandType (ns : Namespace) (fuel : Nat) : List Ty → Ty → List Ty →
    Except GenError (List Ty) :=
  Nat.rec (motive := fun _ => List Ty → Ty → List Ty →
      Except GenError (List Ty))
    (fun _ _ _ => .error .fuelExhausted)
    (fun _ rec path t acc =>
      if t ∈ path then .error (.circular (cycleMessage (path ++ [t])))
      else do
        let acc ← t.properties.foldlM
          (expandStep ns (fun d a => rec (path ++ [t]) d a)) acc
        pure (if t ∈ acc then acc else acc ++ [t]))
    fuel

/-- `ExpandType` with no fuel left. -/
theorem ExpandType_zero (ns : Namespace) (path : List Ty) (t : Ty)
    (acc : List Ty) :
    ExpandType ns 0 path t acc = .error .fuelExhausted := rfl

/-- The recursion equation of `ExpandType`. -/
theorem ExpandType_succ (ns : Namespace) (fuel : Nat) (path : List Ty)
    (t : Ty) (acc : List Ty) :
    ExpandType ns (fuel + 1) path t acc =
      (if t ∈ path then .error (.circular (cycleMessage (path ++ [t])))
       else do
         let acc ← t.properties.foldlM
           (expandStep ns (ExpandType ns fuel (path ++ [t]))) acc
         pure (if t ∈ acc then acc else acc ++ [t])) := rfl

/-- `_FieldDependencyOrder()`: the namespace's types, ordered so that
depended-upon types appear before types that depend on them. -/
def FieldDependencyOrder (ns : Namespace) : Except GenError (List Ty) :=
  (typeValues ns).foldlM
    (fun acc t => ExpandType ns (ns.types.length + 1) [] t acc) []

/-- The fixed preamble of `Generate`: license, generated-file message,
inclusion-guard open, include block, forward declarations for the two
hard-reference namespaces, and the target namespace scope opening. -/
def headerCode (ns : Namespace) : Code :=
  let outputFile := splitextRoot ns.source_file ++ ".h"
  let ifndefName := GenerateIfndefName outputFile
  let includeSoft := ns.name ∉ ["tabs", "windows"]
  let c := (((Code.empty.append CHROMIUM_LICENSE).append "").append
    (GENERATED_FILE_MESSAGE (ToPosixPath ns.source_file))).append ""
  let c := ((((((((((c.append ("#ifndef " ++ ifndefName)).append
    ("#define " ++ ifndefName)).append "").append
    "#include <stdint.h>").append "").append
    "#include <map>").append
    "#include <memory>").append
    "#include <string>").append
    "#include <vector>").append "").append
    "#include \"base/values.h\""
  let c := (c.cblock
    (GenerateIncludes includeSoft ns.compiler_options.generate_error_messages)).append ""
  let c := if !includeSoft then c.cblock GenerateForwardDeclarations else c
  let cppNamespace := GetCppNamespace ns.namespace_pattern ns.unix_name
  (c.concat (OpenNamespace cppNamespace)).append ""

/-- The `// Properties` section: the section comment block and one constant
declaration per namespace-level property, present only when the namespace
has properties. -/
def propertiesSection (ns : Namespace) : Code :=
  if ns.properties = [] then Code.empty
  else
    ns.properties.foldl
      (fun c prop =>
        let pc := GeneratePropertyValues prop "extern const %(type)s %(name)s;"
        if pc.lines ≠ [] then c.cblock pc else c)
      ((((Code.empty.append "//").append "// Properties").append "//").append "")

/-- The `// Types` section: the declarations of all namespace types in
dependency order, present only when the namespace has types. -/
def typesSection (ns : Namespace) : Except GenError Code :=
  if ns.types = [] then pure Code.empty
  else do
    let order ← FieldDependencyOrder ns
    let ct ← GenerateTypes ns.compiler_options order true true
    pure (((((Code.empty.append "//").append "// Types").append "//").append
      "").cblock ct)

/-- The `// Manifest Keys` section (`_GenerateManifestKeys`), present only
when the namespace has a manifest-keys type, which must be an OBJECT. -/
def manifestSection (ns : Namespace) : Except GenError Code :=
  match ns.manifest_keys with
  | none => pure Code.empty
  | some mkeys => do
    if mkeys.propertyType ≠ PropertyType.object then throw .assertionFailure
    else do
      let cm ← GenerateType ns.compiler_options mkeys false false
      pure (((((Code.empty.append "//").append "// Manifest Keys").append
        "//").append "").cblock cm)

/-- The `// Functions` section, present only when the namespace has
functions. -/
def functionsSection (ns : Namespace) : Except GenError Code :=
  if ns.functions = [] then pure Code.empty
  else do
    let cf ← GenerateFuncs ns.compiler_options ns.functions
    pure (((((Code.empty.append "//").append "// Functions").append
      "//").append "").concat cf)

/-- The `// Events` section, present only when the namespace has events. -/
def eventsSection (ns : Namespace) : Except GenError Code :=
  if ns.events = [] then pure Code.empty
  else do
    let ce ← GenerateEvents ns.compiler_options ns.name ns.events
    pure (((((Code.empty.append "//").append "// Events").append
      "//").append "").concat ce)

/-- The fixed closing of `Generate`: namespace scope close and inclusion
guard close. -/
def footerCode (ns : Namespace) : Code :=
  let outputFile := splitextRoot ns.source_file ++ ".h"
  let ifndefName := GenerateIfndefName outputFile
  let cppNamespace := GetCppNamespace ns.namespace_pattern ns.unix_name
  (((Code.empty.concat (CloseNamespace cppNamespace)).append "").append
    ("#endif  // " ++ ifndefName)).append ""

/-- `Generate()`: the complete `.h` document for one namespace — preamble,
then the properties, types, manifest-keys, functions and events sections in
that fixed order, then the closing. -/
def Generate (ns : Namespace) : Except GenError Code := do
  let ts ← typesSection ns
  let ms ← manifestSection ns
  let fs ← functionsSection ns
  let es ← eventsSection ns
  pure (((((((headerCode ns).concat (propertiesSection ns)).concat ts).concat
    ms).concat fs).concat es).concat (footerCode ns))

/-! ## Specification-level relations -/

/-- `t` references `d` through one same-namespace REF property (one step of
the dependency graph that `_FieldDependencyOrder` expands). -/
def RefEdge (ns : Namespace) (t d : Ty) : Prop :=
  ∃ p ∈ t.properties, isSameNsRef ns p = true ∧ lookupType ns p.ty.refType = some d

/-- `d` is reachable from `t` via a non-empty chain of same-namespace REF
properties. -/
def Reaches (ns : Namespace) (t d : Ty) : Prop :=
  Relation.TransGen (RefEdge ns) t d

/-- The same-namespace REF-property graph has no cycle. -/
def Acyclic (ns : Namespace) : Prop := ∀ t, ¬ Reaches ns t t

/-- Well-formedness of the supplied model, promised by the external parsing
stage: every type is stored under its own name, names are unique, and every
same-namespace REF resolves in the type table. -/
def WellFormedNS (ns : Namespace) : Prop :=
  (∀ kv ∈ ns.types, Ty.name kv.2 = kv.1) ∧
  (ns.types.map Prod.fst).Nodup ∧
  (∀ t ∈ typeValues ns, ∀ p ∈ t.properties,
    isSameNsRef ns p = true → (lookupType ns p.ty.refType).isSome = true)

/-- A list of types is dependency-closed: each member's REF targets are in
the list, strictly earlier. -/
def DepClosed (ns : Namespace) (l : List Ty) : Prop :=
  ∀ t ∈ l, ∀ d, RefEdge ns t d → d ∈ l ∧ l.indexOf d < l.indexOf t

/-- `c'` extends `c`: its line list begins with `c`'s. -/
def LinesExtend (c c' : Code) : Prop := ∃ δ, c'.lines = c.lines ++ δ

/-- The lines a `Cblock` contributes at indentation `ind`. -/
def cblockLines (ind : Nat) (x : Code) : List String :=
  if x.render = "" then [] else x.lines.map (indentLine ind) ++ [""]

/-! ## Concrete example inputs -/

def origin0 : Origin := ⟨false, false, false⟩
def originJson : Origin := ⟨true, false, false⟩
def opts0 : CompilerOptions := ⟨false, false⟩

/-- Example: a STRING-typed leaf. -/
def stringLeaf : Ty :=
  Ty.mk "ex.Str" "str" .string "" none [] [] [] none origin0 [] "" false

/-- Example: an ENUM with declared values `["Foo", "Bar"]`. -/
def enumFooBar : Ty :=
  Ty.mk "test.MyEnum" "my_enum" .enum "" none ["Foo", "Bar"] [] [] none
    origin0 [] "" false

/-- Example: an ENUM with an empty declared value sequence. -/
def enumEmptyVals : Ty :=
  Ty.mk "test.E" "e" .enum "" none [] [] [] none origin0 [] "" false

/-- Example: an ANY-tagged type (no emitter branch matches it). -/
def anyLeaf : Ty :=
  Ty.mk "test.AnyT" "any_t" .any "" none [] [] [] none origin0 [] "" false

def choiceX : Ty :=
  Ty.mk "test.X" "x" .string "" none [] [] [] none origin0 [] "" false

def choiceY : Ty :=
  Ty.mk "test.Y" "y" .integer "" none [] [] [] none origin0 [] "" false

/-- Example: a CHOICES type with alternatives `[X, Y]`. -/
def choicesEx : Ty :=
  Ty.mk "test.Ch" "ch" .choices "" none [] [] [choiceX, choiceY] none
    originJson [] "" false

/-- Example: an OBJECT type with one string property. -/
def objEx : Ty :=
  Ty.mk "test.Obj" "obj" .object "" none []
    [Prop_.mk "p" "p" false "" stringLeaf] [] none originJson [] "" false

/-- A property holding one same-namespace REF to `target`. -/
def refTo (target : String) : Prop_ :=
  Prop_.mk "r" "r" false ""
    (Ty.mk "r" "r" .ref "" none [] [] [] none origin0 [] target false)

def tyA : Ty :=
  Ty.mk "test.A" "a" .object "" none [] [refTo "test.B"] [] none origin0 [] "" false

def tyB : Ty :=
  Ty.mk "test.B" "b" .object "" none [] [refTo "test.A"] [] none origin0 [] "" false

def tyC : Ty :=
  Ty.mk "test.C" "c" .object "" none [] [refTo "test.D"] [] none origin0 [] "" false

def tyD : Ty :=
  Ty.mk "test.D" "d" .object "" none [] [] [] none origin0 [] "" false

/-- Example: a namespace with no properties, types, manifest keys,
functions or events. -/
def baseNs : Namespace :=
  ⟨"test", "test", "path/test.json", [], [], none, [], [], opts0,
    "extensions::api::%s"⟩

/-- Example: types `A` (one REF property to `B`) and `B` (one REF property
to `A`). -/
def nsAB : Namespace := { baseNs with types := [("test.A", tyA), ("test.B", tyB)] }

/-- Example: acyclic dependency `C → D`. -/
def nsCD : Namespace := { baseNs with types := [("test.C", tyC), ("test.D", tyD)] }

def fnEx : Func := Func.mk "doThing" [Prop_.mk "arg" "arg" false "" stringLeaf] none

def evEx : Event := ⟨"onThing", []⟩

/-- Example: a root manifest-keys OBJECT type. -/
def manifestEx : Ty :=
  Ty.mk "test.ManifestKeys" "manifest_keys" .object "" none [] [] [] none
    ⟨false, false, true⟩ [] "" true

/-- Example: a minimal OBJECT type (no properties, no origin flags). -/
def objMin : Ty :=
  Ty.mk "test.Obj" "obj" .object "" none [] [] [] none origin0 [] "" false

/-- Example: a minimal CHOICES type with alternatives `[X, Y]`. -/
def choicesMin : Ty :=
  Ty.mk "test.Ch" "ch" .choices "" none [] [] [choiceX, choiceY] none
    origin0 [] "" false

/-- Example: a namespace with only namespace-level properties. -/
def nsProps : Namespace :=
  { baseNs with properties := [Prop_.mk "np" "np" false "" stringLeaf] }

/-- Example: a namespace exercising all five sections. -/
def nsFull : Namespace :=
  { baseNs with
    properties := [Prop_.mk "np" "np" false "" stringLeaf],
    types := [("test.MyEnum", enumFooBar)],
    manifest_keys := some manifestEx,
    functions := [fnEx],
    events := [evEx] }

/-! ## Builder lemmas -/

theorem indentLine_zero (l : String) : indentLine 0 l = l := by
  unfold indentLine
  split
  · rename_i h; exact h.symm
  · rfl

theorem map_indentLine_zero (ls : List String) : ls.map (indentLine 0) = ls := by
  rw [show indentLine 0 = id from funext indentLine_zero, List.map_id]

theorem append_right_ne_empty (a b : String) (hb : b ≠ "") : a ++ b ≠ "" := by
  intro hab
  apply hb
  have hd := congrArg String.data hab
  rw [String.data_append] at hd
  exact String.ext (by simp [(List.append_eq_nil.mp hd).2])

theorem indentLine_two (s : String) (h : s ≠ "") : indentLine 2 s = "  " ++ s := by
  unfold indentLine
  rw [if_neg h]
  exact rfl

/-! ## Claim C10: empty enum value sequences make generation fail -/

/-- C10: for every ENUM type whose declared value sequence is empty,
`_GenerateEnumDeclaration` reads the loop variable `current_enum_string`
after a loop that never executed, so the call fails with an uncaught
unbound-local error instead of emitting an enum with only the none/zero
sentinel. -/
theorem enum_empty_values_fails (modernised : Bool) (enumName : String)
    (t : Ty) (h : t.enumValues = []) :
    GenerateEnumDeclaration modernised enumName t =
      .error (.unboundLocal "current_enum_string") := by
  unfold GenerateEnumDeclaration
  rw [h]
  exact rfl

theorem enum_empty_values_fails_witness :
    GenerateEnumDeclaration false "E" enumEmptyVals =
      .error (.unboundLocal "current_enum_string") :=
  enum_empty_values_fails false "E" enumEmptyVals rfl

/-! ## Claim C3: shape of emitted enum declarations -/

theorem enum_values_foldl (t : Ty) :
    ∀ (vs : List String), vs ≠ [] → ∀ (c : Code) (o : Option String) (h : vs ≠ []),
    vs.foldl (enumStep t) (c, o) =
    ({ lines := c.lines ++ vs.map (fun v => indentLine c.indent (GetEnumValue t v ++ ",")),
       indent := c.indent },
     some (GetEnumValue t (vs.getLast h)))
  | [], hne => absurd rfl hne
  | [v], _ => by
    intro c o h
    simp [enumStep, Code.append]
  | v :: v' :: vs, _ => by
    intro c o h
    rw [List.foldl_cons,
      enum_values_foldl t (v' :: vs) (by simp) _ _ (by simp)]
    simp [enumStep, Code.append, List.getLast_cons]

/-- C3: for every ENUM type with a non-empty declared value sequence, the
emitted enumeration's first member is the reserved none/zero sentinel
explicitly set to 0, followed by one member per declared value in declared
order; without `modernised_enums` the declaration ends with a trailing
member aliasing the last declared value under the generic last name and the
enum is unscoped; with `modernised_enums` the trailing member is `kMaxValue`
equal to the last declared value and the enum is scoped (`enum class`). -/
theorem enum_declaration_shape (modernised : Bool) (enumName : String)
    (t : Ty) (h : t.enumValues ≠ []) :
    GenerateEnumDeclaration modernised enumName t = .ok
      { lines :=
          ("enum " ++ (if modernised then "class" else "") ++ " " ++ enumName ++ " \x7b") ::
          ("  " ++ (GetEnumNoneValue t ++ " = 0,")) ::
          (t.enumValues.map (fun v => "  " ++ (GetEnumValue t v ++ ","))) ++
          [(if modernised then
              "  " ++ ("kMaxValue = " ++ GetEnumValue t (t.enumValues.getLast h) ++ ",")
            else
              "  " ++ (GetEnumLastValue t ++ " = " ++ GetEnumValue t (t.enumValues.getLast h) ++ ",")),
           "\x7d;"],
        indent := 0 } := by
  simp only [GenerateEnumDeclaration]
  rw [enum_values_foldl t t.enumValues h _ _ h]
  have hmap : ∀ vs : List String,
      vs.map (fun v => indentLine 2 (GetEnumValue t v ++ ",")) =
      vs.map (fun v => "  " ++ (GetEnumValue t v ++ ",")) := by
    intro vs
    apply List.map_congr_left
    intro v _
    exact indentLine_two _ (append_right_ne_empty _ "," (by decide))
  cases modernised <;>
    simp only [Code.sblock, Code.append, Code.eblock, Code.empty, indentLine_zero,
      hmap, indentLine_two _ (append_right_ne_empty _ "," (by decide)),
      indentLine_two _ (by decide : ("NONE" : String) ++ " = 0," ≠ ""),
      GetEnumNoneValue] <;>
    simp [indentLine_two _ (append_right_ne_empty _ "," (by decide)),
      String.append_assoc, indentLine_zero]

theorem enum_declaration_shape_witness :
    GenerateEnumDeclaration false "MyEnum" enumFooBar = .ok
      { lines := ["enum  MyEnum \x7b", "  NONE = 0,", "  FOO,", "  BAR,",
                  "  LAST = BAR,", "\x7d;"], indent := 0 } ∧
    GenerateEnumDeclaration true "MyEnum" enumFooBar = .ok
      { lines := ["enum class MyEnum \x7b", "  NONE = 0,", "  FOO,", "  BAR,",
                  "  kMaxValue = BAR,", "\x7d;"], indent := 0 } :=
  ⟨by rw [enum_declaration_shape false "MyEnum" enumFooBar (by decide)]; decide,
   by rw [enum_declaration_shape true "MyEnum" enumFooBar (by decide)]; decide⟩

/-! ## Claim C9: generation is deterministic -/

/-- C9: `Generate` is a deterministic function of its input model: two
invocations on the same unmodified namespace return the same text (or raise
the same error).  In this embedding `Generate` is a pure function of the
namespace value alone — it reads no state outside its input — so equal
inputs give equal results. -/
theorem generate_deterministic (ns : Namespace) (r₁ r₂ : Except GenError Code)
    (h₁ : Generate ns = r₁) (h₂ : Generate ns = r₂) : r₁ = r₂ :=
  h₁ ▸ h₂

theorem generate_deterministic_witness :
    Generate baseNs = Generate baseNs :=
  generate_deterministic baseNs (Generate baseNs) (Generate baseNs) rfl rfl

/-! ## Claim C8: unrecognized type-shape tags -/

/-- C8 counterexample: an ANY-tagged type with no nested functions reaches
the type declaration emitter and generation succeeds with empty output — it
does not fail with an internal-consistency error. -/
theorem unknown_tag_no_error :
    GenerateType opts0 anyLeaf false false = .ok { lines := [], indent := 0 } := by
  show GenerateType opts0
    (Ty.mk "test.AnyT" "any_t" .any "" none [] [] [] none origin0 [] "" false)
    false false = _
  rw [GenerateType]
  all_goals first
  | rfl
  | decide

/-- C8 amended: for every type whose `property_type` tag has no matching
branch in `_GenerateType` (and which has no nested functions), the emitter
silently skips the type, returning empty output and never raising: there is
no internal-consistency failure path in the emitter. -/
theorem unhandled_tag_silently_skipped (opts : CompilerOptions) (t : Ty)
    (iT gT : Bool) (hfn : t.functions = [])
    (hpt : t.propertyType ≠ .array ∧ t.propertyType ≠ .string ∧
           t.propertyType ≠ .enum ∧ t.propertyType ≠ .object ∧
           t.propertyType ≠ .choices) :
    GenerateType opts t iT gT = .ok { lines := [], indent := 0 } := by
  obtain ⟨n, u, pt, d, it, ev, ps, cs, ap, o, fs, r, b⟩ := t
  simp only [Ty.functions] at hfn
  simp only [Ty.propertyType] at hpt
  subst hfn
  obtain ⟨h1, h2, h3, h4, h5⟩ := hpt
  rw [GenerateType]
  · cases pt <;>
      simp_all [Code.substitute, pure, Except.pure, bind, Except.bind, Code.empty]
  all_goals assumption

theorem unhandled_tag_silently_skipped_witness :
    GenerateType opts0 anyLeaf true true = .ok { lines := [], indent := 0 } :=
  unhandled_tag_silently_skipped opts0 anyLeaf true true rfl
    (by refine ⟨?_, ?_, ?_, ?_, ?_⟩ <;> decide)

/-! ## Claim C7: empty namespaces produce only boilerplate -/

theorem foldl_append_lines {α : Type} (f : α → String) :
    ∀ (l : List α) (c : Code),
      (l.foldl (fun c x => c.append (f x)) c).lines =
        c.lines ++ l.map (fun x => indentLine c.indent (f x)) ∧
      (l.foldl (fun c x => c.append (f x)) c).indent = c.indent
  | [], c => by simp
  | x :: xs, c => by
    have ih := foldl_append_lines f xs (c.append (f x))
    constructor
    · rw [List.foldl_cons, ih.1]
      simp [Code.append]
    · rw [List.foldl_cons, ih.2]
      simp [Code.append]

theorem openNamespace_lines_shape (cpp : String) :
    ∀ l ∈ (OpenNamespace cpp).lines, ∃ comp, l = "namespace " ++ comp ++ " \x7b" := by
  intro l hl
  unfold OpenNamespace at hl
  rw [(foldl_append_lines _ _ _).1] at hl
  simp only [Code.empty, List.nil_append, List.mem_map] at hl
  obtain ⟨comp, _, hc⟩ := hl
  exact ⟨comp, by rw [← hc, indentLine_zero]⟩

theorem closeNamespace_lines_shape (cpp : String) :
    ∀ l ∈ (CloseNamespace cpp).lines,
      ∃ comp, l = "\x7d  // namespace " ++ comp := by
  intro l hl
  unfold CloseNamespace at hl
  rw [(foldl_append_lines _ _ _).1] at hl
  simp only [Code.empty, List.nil_append, List.mem_map] at hl
  obtain ⟨comp, _, hc⟩ := hl
  exact ⟨comp, by rw [← hc, indentLine_zero]⟩

theorem headerCode_shape (ns : Namespace) :
    (headerCode ns).lines =
      [CHROMIUM_LICENSE, "",
       GENERATED_FILE_MESSAGE (ToPosixPath ns.source_file), "",
       "#ifndef " ++ GenerateIfndefName (splitextRoot ns.source_file ++ ".h"),
       "#define " ++ GenerateIfndefName (splitextRoot ns.source_file ++ ".h"),
       "", "#include <stdint.h>", "", "#include <map>", "#include <memory>",
       "#include <string>", "#include <vector>", "",
       "#include \"base/values.h\"", ""] ++
      (OpenNamespace (GetCppNamespace ns.namespace_pattern ns.unix_name)).lines ++
      [""] ∧
    (headerCode ns).indent = 0 := by
  have hopen := foldl_append_lines
    (fun comp => "namespace " ++ comp ++ " \x7b")
    (strSplit (GetCppNamespace ns.namespace_pattern ns.unix_name) "::") Code.empty
  constructor <;>
    simp [headerCode, Code.append, Code.cblock, Code.concat, Code.render,
      GenerateIncludes, GenerateForwardDeclarations, Code.empty, joinSep,
      indentLine_zero, map_indentLine_zero, OpenNamespace, hopen.2]

theorem footerCode_shape (ns : Namespace) :
    (footerCode ns).lines =
      (CloseNamespace (GetCppNamespace ns.namespace_pattern ns.unix_name)).lines ++
      ["", "#endif  // " ++ GenerateIfndefName (splitextRoot ns.source_file ++ ".h"),
       ""] ∧
    (footerCode ns).indent = 0 := by
  have hclose := foldl_append_lines
    (fun comp => "\x7d  // namespace " ++ comp)
    ((strSplit (GetCppNamespace ns.namespace_pattern ns.unix_name) "::").reverse)
    Code.empty
  constructor <;>
    simp [footerCode, Code.append, Code.concat, Code.empty, indentLine_zero,
      map_indentLine_zero, CloseNamespace, hclose.2]

/-- The five section marker comment lines. -/
def sectionMarkers : List String :=
  ["// Properties", "// Types", "// Manifest Keys", "// Functions", "// Events"]

theorem not_marker_of_get (l : String) (n : Nat) (v : Option Char)
    (hl : l.data.get? n = v)
    (h : ∀ m ∈ sectionMarkers, m.data.get? n ≠ v) :
    l ∉ sectionMarkers :=
  fun hm => h l hm hl

theorem header_footer_no_markers (ns : Namespace) :
    ∀ l ∈ (headerCode ns).lines ++ (footerCode ns).lines, l ∉ sectionMarkers := by
  intro l hl
  rw [List.mem_append, (headerCode_shape ns).1, (footerCode_shape ns).1] at hl
  rcases hl with hl | hl
  · rw [List.mem_append, List.mem_append] at hl
    rcases hl with (hl | hl) | hl
    · simp only [List.mem_cons, List.not_mem_nil, or_false] at hl
      rcases hl with rfl | rfl | rfl | rfl | rfl | rfl | rfl | rfl | rfl | rfl |
        rfl | rfl | rfl | rfl | rfl | rfl <;>
        first
        | exact not_marker_of_get _ 0 none rfl (by decide)
        | exact not_marker_of_get _ 0 (some '#') rfl (by decide)
        | exact not_marker_of_get _ 3 (some 'C') rfl (by decide)
        | exact not_marker_of_get _ 3 (some 'G') rfl (by decide)
    · obtain ⟨comp, rfl⟩ := openNamespace_lines_shape _ l hl
      exact not_marker_of_get _ 0 (some 'n') rfl (by decide)
    · simp only [List.mem_cons, List.not_mem_nil, or_false] at hl
      subst hl
      exact not_marker_of_get _ 0 none rfl (by decide)
  · rw [List.mem_append] at hl
    rcases hl with hl | hl
    · obtain ⟨comp, rfl⟩ := closeNamespace_lines_shape _ l hl
      exact not_marker_of_get _ 0 (some '\x7d') rfl (by decide)
    · simp only [List.mem_cons, List.not_mem_nil, or_false] at hl
      rcases hl with rfl | rfl | rfl <;>
        first
        | exact not_marker_of_get _ 0 none rfl (by decide)
        | exact not_marker_of_get _ 0 (some '#') rfl (by decide)

/-- C7: for every namespace with no properties, no types, no manifest keys,
no functions and no events, `Generate` returns only the license header,
the inclusion-guard open and close with the fixed include block, and the
empty target-namespace scope braces — and no section comment blocks
(`// Properties`, `// Types`, `// Manifest Keys`, `// Functions`,
`// Events`). -/
theorem empty_namespace_boilerplate (ns : Namespace)
    (h1 : ns.properties = []) (h2 : ns.types = [])
    (h3 : ns.manifest_keys = none) (h4 : ns.functions = [])
    (h5 : ns.events = []) :
    Generate ns = .ok
      { lines := (headerCode ns).lines ++ (footerCode ns).lines, indent := 0 } ∧
    ∀ l ∈ (headerCode ns).lines ++ (footerCode ns).lines, l ∉ sectionMarkers := by
  refine ⟨?_, header_footer_no_markers ns⟩
  have hh := (headerCode_shape ns).2
  simp [Generate, typesSection, h2, manifestSection, h3, functionsSection, h4,
    eventsSection, h5, propertiesSection, h1, bind, Except.bind, pure,
    Except.pure, Code.concat, Code.empty, map_indentLine_zero, hh]

theorem empty_namespace_boilerplate_witness :
    Generate baseNs = .ok
      { lines := (headerCode baseNs).lines ++ (footerCode baseNs).lines,
        indent := 0 } ∧
    ∀ l ∈ (headerCode baseNs).lines ++ (footerCode baseNs).lines,
      l ∉ sectionMarkers :=
  empty_namespace_boilerplate baseNs rfl rfl rfl rfl rfl

/-! ## The lines of a builder only grow -/

theorem linesExtend_refl (c : Code) : LinesExtend c c := ⟨[], by simp⟩

theorem linesExtend_trans {a b c : Code} (h1 : LinesExtend a b)
    (h2 : LinesExtend b c) : LinesExtend a c := by
  obtain ⟨d1, e1⟩ := h1
  obtain ⟨d2, e2⟩ := h2
  exact ⟨d1 ++ d2, by rw [e2, e1, List.append_assoc]⟩

theorem linesExtend_append (c : Code) (s : String) :
    LinesExtend c (c.append s) := ⟨_, rfl⟩

theorem linesExtend_sblock (c : Code) (s : String) :
    LinesExtend c (c.sblock s) := ⟨_, rfl⟩

theorem linesExtend_eblock (c : Code) (s : String) :
    LinesExtend c (c.eblock s) := ⟨_, rfl⟩

theorem linesExtend_eblockNone (c : Code) : LinesExtend c c.eblockNone :=
  ⟨[], by simp [Code.eblockNone]⟩

theorem linesExtend_comment (c : Code) (s : String) :
    LinesExtend c (c.comment s) := ⟨_, rfl⟩

theorem linesExtend_concat (c o : Code) : LinesExtend c (c.concat o) := ⟨_, rfl⟩

theorem cblock_lines (c x : Code) :
    (c.cblock x).lines = c.lines ++ cblockLines c.indent x := by
  unfold Code.cblock cblockLines
  split
  · simp
  · simp [Code.concat, Code.append, indentLine]

theorem cblock_indent (c x : Code) : (c.cblock x).indent = c.indent := by
  unfold Code.cblock
  split
  · rfl
  · rfl

theorem linesExtend_cblock (c o : Code) : LinesExtend c (c.cblock o) :=
  ⟨_, cblock_lines c o⟩

theorem linesExtend_ite (c : Code) (b : Prop) [Decidable b] {x y : Code}
    (h1 : LinesExtend c x) (h2 : LinesExtend c y) :
    LinesExtend c (if b then x else y) := by
  split
  · exact h1
  · exact h2

theorem linesExtend_foldl {α : Type} (f : Code → α → Code)
    (hf : ∀ c a, LinesExtend c (f c a)) :
    ∀ (l : List α) (c : Code), LinesExtend c (l.foldl f c)
  | [], c => linesExtend_refl c
  | x :: xs, c => by
    rw [List.foldl_cons]
    exact linesExtend_trans (hf c x) (linesExtend_foldl f hf xs (f c x))

/-! ## Claim C4: fixed section order -/

theorem propertiesSection_cases (ns : Namespace) :
    (propertiesSection ns).indent = 0 ∧
    ((propertiesSection ns).lines = [] ↔ ns.properties = []) ∧
    (ns.properties ≠ [] →
      (propertiesSection ns).lines.take 3 = ["//", "// Properties", "//"]) := by
  unfold propertiesSection
  by_cases hp : ns.properties = []
  · simp [hp, Code.empty]
  · rw [if_neg hp]
    have hext := linesExtend_foldl
      (fun c prop =>
        let pc := GeneratePropertyValues prop "extern const %(type)s %(name)s;"
        if pc.lines ≠ [] then c.cblock pc else c)
      (fun c a => by
        dsimp only []
        exact linesExtend_ite c _ (linesExtend_cblock _ _) (linesExtend_refl c))
      ns.properties
      ((((Code.empty.append "//").append "// Properties").append "//").append "")
    obtain ⟨δ, hδ⟩ := hext
    have hind : ∀ (l : List Prop_) (c : Code),
        (l.foldl (fun c prop =>
          let pc := GeneratePropertyValues prop "extern const %(type)s %(name)s;"
          if pc.lines ≠ [] then c.cblock pc else c) c).indent = c.indent := by
      intro l
      induction l with
      | nil => intro c; rfl
      | cons x xs ih =>
        intro c
        rw [List.foldl_cons]
        rw [ih]
        dsimp only []
        split
        · exact cblock_indent _ _
        · rfl
    rw [hδ]
    refine ⟨by rw [hind]; rfl, ?_, ?_⟩
    · simp [hp, Code.append, Code.empty, indentLine]
    · intro _
      simp [Code.append, Code.empty, indentLine]

theorem typesSection_cases (ns : Namespace) (ts : Code)
    (h : typesSection ns = .ok ts) :
    ts.indent = 0 ∧ (ts.lines = [] ↔ ns.types = []) ∧
    (ns.types ≠ [] → ts.lines.take 3 = ["//", "// Types", "//"]) := by
  unfold typesSection at h
  by_cases hty : ns.types = []
  · rw [if_pos hty] at h
    cases h
    simp [hty, Code.empty]
  · rw [if_neg hty] at h
    cases hfdo : FieldDependencyOrder ns with
    | error e => rw [hfdo] at h; cases h
    | ok order =>
      rw [hfdo] at h
      simp only [bind, Except.bind] at h
      cases hgt : GenerateTypes ns.compiler_options order true true with
      | error e => rw [hgt] at h; cases h
      | ok ct =>
        rw [hgt] at h
        simp only [pure, Except.pure, Except.ok.injEq] at h
        subst h
        rw [cblock_lines]
        refine ⟨cblock_indent _ _, ?_, ?_⟩
        · simp [hty, Code.append, Code.empty, indentLine]
        · intro _
          simp [Code.append, Code.empty, indentLine]

theorem manifestSection_cases (ns : Namespace) (ms : Code)
    (h : manifestSection ns = .ok ms) :
    ms.indent = 0 ∧ (ms.lines = [] ↔ ns.manifest_keys = none) ∧
    (ns.manifest_keys ≠ none →
      ms.lines.take 3 = ["//", "// Manifest Keys", "//"]) := by
  unfold manifestSection at h
  cases hmk : ns.manifest_keys with
  | none =>
    rw [hmk] at h
    cases h
    simp [Code.empty]
  | some mkeys =>
    rw [hmk] at h
    dsimp only [] at h
    by_cases hpt : mkeys.propertyType ≠ PropertyType.object
    · rw [if_pos hpt] at h
      cases h
    · rw [if_neg hpt] at h
      simp only [bind, Except.bind] at h
      cases hgt : GenerateType ns.compiler_options mkeys false false with
      | error e => rw [hgt] at h; cases h
      | ok cm =>
        rw [hgt] at h
        simp only [pure, Except.pure, Except.ok.injEq] at h
        subst h
        rw [cblock_lines]
        refine ⟨cblock_indent _ _, ?_, ?_⟩
        · simp [Code.append, Code.empty, indentLine]
        · intro _
          simp [Code.append, Code.empty, indentLine]

theorem functionsSection_cases (ns : Namespace) (fs : Code)
    (h : functionsSection ns = .ok fs) :
    fs.indent = 0 ∧ (fs.lines = [] ↔ ns.functions = []) ∧
    (ns.functions ≠ [] → fs.lines.take 3 = ["//", "// Functions", "//"]) := by
  unfold functionsSection at h
  by_cases hfn : ns.functions = []
  · rw [if_pos hfn] at h
    cases h
    simp [hfn, Code.empty]
  · rw [if_neg hfn] at h
    cases hgf : GenerateFuncs ns.compiler_options ns.functions with
    | error e => rw [hgf] at h; cases h
    | ok cf =>
      rw [hgf] at h
      cases h
      refine ⟨rfl, ?_, ?_⟩
      · simp [hfn, Code.concat, Code.append, Code.empty, indentLine]
      · intro _
        simp [Code.concat, Code.append, Code.empty, indentLine]

theorem eventsSection_cases (ns : Namespace) (es : Code)
    (h : eventsSection ns = .ok es) :
    es.indent = 0 ∧ (es.lines = [] ↔ ns.events = []) ∧
    (ns.events ≠ [] → es.lines.take 3 = ["//", "// Events", "//"]) := by
  unfold eventsSection at h
  by_cases hev : ns.events = []
  · rw [if_pos hev] at h
    cases h
    simp [hev, Code.empty]
  · rw [if_neg hev] at h
    cases hge : GenerateEvents ns.compiler_options ns.name ns.events with
    | error e => rw [hge] at h; cases h
    | ok ce =>
      rw [hge] at h
      cases h
      refine ⟨rfl, ?_, ?_⟩
      · simp [hev, Code.concat, Code.append, Code.empty, indentLine]
      · intro _
        simp [Code.concat, Code.append, Code.empty, indentLine]

/-- C4: `Generate` emits the namespace's sections in the fixed order —
properties, then types, then manifest keys, then functions, then events —
between the fixed preamble and closing; each section is present (non-empty,
opening with its section comment block) exactly when its collection is
non-empty; and this order is the same for every input. -/
theorem generate_section_order (ns : Namespace) (c : Code)
    (hok : Generate ns = .ok c) :
    ∃ ts ms fs es,
      typesSection ns = .ok ts ∧ manifestSection ns = .ok ms ∧
      functionsSection ns = .ok fs ∧ eventsSection ns = .ok es ∧
      c.lines = (headerCode ns).lines ++ (propertiesSection ns).lines ++
        ts.lines ++ ms.lines ++ fs.lines ++ es.lines ++ (footerCode ns).lines ∧
      ((propertiesSection ns).lines = [] ↔ ns.properties = []) ∧
      (ts.lines = [] ↔ ns.types = []) ∧
      (ms.lines = [] ↔ ns.manifest_keys = none) ∧
      (fs.lines = [] ↔ ns.functions = []) ∧
      (es.lines = [] ↔ ns.events = []) ∧
      (ns.properties ≠ [] →
        (propertiesSection ns).lines.take 3 = ["//", "// Properties", "//"]) ∧
      (ns.types ≠ [] → ts.lines.take 3 = ["//", "// Types", "//"]) ∧
      (ns.manifest_keys ≠ none →
        ms.lines.take 3 = ["//", "// Manifest Keys", "//"]) ∧
      (ns.functions ≠ [] → fs.lines.take 3 = ["//", "// Functions", "//"]) ∧
      (ns.events ≠ [] → es.lines.take 3 = ["//", "// Events", "//"]) := by
  unfold Generate at hok
  cases hts : typesSection ns with
  | error e => rw [hts] at hok; cases hok
  | ok ts =>
  rw [hts] at hok
  cases hms : manifestSection ns with
  | error e => rw [hms] at hok; cases hok
  | ok ms =>
  rw [hms] at hok
  cases hfs : functionsSection ns with
  | error e => rw [hfs] at hok; cases hok
  | ok fs =>
  rw [hfs] at hok
  cases hes : eventsSection ns with
  | error e => rw [hes] at hok; cases hok
  | ok es =>
  rw [hes] at hok
  simp only [bind, Except.bind, pure, Except.pure, Except.ok.injEq] at hok
  subst hok
  have hhi := (headerCode_shape ns).2
  have hp := propertiesSection_cases ns
  have ht := typesSection_cases ns ts hts
  have hm := manifestSection_cases ns ms hms
  have hf := functionsSection_cases ns fs hfs
  have he := eventsSection_cases ns es hes
  refine ⟨ts, ms, fs, es, rfl, rfl, rfl, rfl, ?_,
    hp.2.1, ht.2.1, hm.2.1, hf.2.1, he.2.1,
    hp.2.2, ht.2.2, hm.2.2, hf.2.2, he.2.2⟩
  simp [Code.concat, hhi, map_indentLine_zero, List.append_assoc]

theorem generate_section_order_witness :
    ∃ c, Generate nsProps = .ok c ∧ ∃ ts ms fs es,
      typesSection nsProps = .ok ts ∧ manifestSection nsProps = .ok ms ∧
      functionsSection nsProps = .ok fs ∧ eventsSection nsProps = .ok es ∧
      c.lines = (headerCode nsProps).lines ++ (propertiesSection nsProps).lines ++
        ts.lines ++ ms.lines ++ fs.lines ++ es.lines ++
        (footerCode nsProps).lines ∧
      ((propertiesSection nsProps).lines = [] ↔ nsProps.properties = []) ∧
      (ts.lines = [] ↔ nsProps.types = []) ∧
      (ms.lines = [] ↔ nsProps.manifest_keys = none) ∧
      (fs.lines = [] ↔ nsProps.functions = []) ∧
      (es.lines = [] ↔ nsProps.events = []) ∧
      (nsProps.properties ≠ [] →
        (propertiesSection nsProps).lines.take 3 = ["//", "// Properties", "//"]) ∧
      (nsProps.types ≠ [] → ts.lines.take 3 = ["//", "// Types", "//"]) ∧
      (nsProps.manifest_keys ≠ none →
        ms.lines.take 3 = ["//", "// Manifest Keys", "//"]) ∧
      (nsProps.functions ≠ [] → fs.lines.take 3 = ["//", "// Functions", "//"]) ∧
      (nsProps.events ≠ [] → es.lines.take 3 = ["//", "// Events", "//"]) := by
  have hok : Generate nsProps = .ok
      (((((((headerCode nsProps).concat (propertiesSection nsProps)).concat
        Code.empty).concat Code.empty).concat Code.empty).concat
        Code.empty).concat (footerCode nsProps)) := rfl
  exact ⟨_, hok, generate_section_order nsProps _ hok⟩

/-! ## Claim C5: move-only object/choices shape -/

theorem substitute_lines (c : Code) (k v : String) :
    (c.substitute k v).lines = c.lines.map (substLine k v) := rfl

theorem substLine_copy_ctor (n : String) :
    substLine "classname" n "  %(classname)s(const %(classname)s&) = delete;" =
      "  " ++ n ++ "(const " ++ n ++ "&) = delete;" := by
  simp [substLine, replaceChars, replaceAux, List.isPrefixOf]
  apply String.ext
  simp [String.data_append]

theorem substLine_copy_assign (n : String) :
    substLine "classname" n "  %(classname)s& operator=(const %(classname)s&) = delete;" =
      "  " ++ n ++ "& operator=(const " ++ n ++ "&) = delete;" := by
  simp [substLine, replaceChars, replaceAux, List.isPrefixOf]
  apply String.ext
  simp [String.data_append]

theorem substLine_move_ctor (n : String) :
    substLine "classname" n "  %(classname)s(%(classname)s&& rhs);" =
      "  " ++ n ++ "(" ++ n ++ "&& rhs);" := by
  simp [substLine, replaceChars, replaceAux, List.isPrefixOf]
  apply String.ext
  simp [String.data_append]

theorem substLine_move_assign (n : String) :
    substLine "classname" n "  %(classname)s& operator=(%(classname)s&& rhs);" =
      "  " ++ n ++ "& operator=(" ++ n ++ "&& rhs);" := by
  simp [substLine, replaceChars, replaceAux, List.isPrefixOf]
  apply String.ext
  simp [String.data_append]

theorem structOpenBlock_shape (desc : String) :
    (structOpenBlock desc).lines =
      ((if desc ≠ "" then ["// " ++ desc] else []) ++
        ["struct %(classname)s \x7b", "  %(classname)s();", "  ~%(classname)s();"]) ++
      ["  %(classname)s(const %(classname)s&) = delete;",
       "  %(classname)s& operator=(const %(classname)s&) = delete;",
       "  %(classname)s(%(classname)s&& rhs);",
       "  %(classname)s& operator=(%(classname)s&& rhs);"] ∧
    (structOpenBlock desc).indent = 2 := by
  have e1 : indentLine 2 "%(classname)s();" = "  %(classname)s();" := by decide
  have e2 : indentLine 2 "~%(classname)s();" = "  ~%(classname)s();" := by decide
  have e3 : indentLine 2 "%(classname)s(const %(classname)s&) = delete;" =
      "  %(classname)s(const %(classname)s&) = delete;" := by decide
  have e4 : indentLine 2 "%(classname)s& operator=(const %(classname)s&) = delete;" =
      "  %(classname)s& operator=(const %(classname)s&) = delete;" := by decide
  have e5 : indentLine 2 "%(classname)s(%(classname)s&& rhs);" =
      "  %(classname)s(%(classname)s&& rhs);" := by decide
  have e6 : indentLine 2 "%(classname)s& operator=(%(classname)s&& rhs);" =
      "  %(classname)s& operator=(%(classname)s&& rhs);" := by decide
  unfold structOpenBlock
  split <;>
    simp [Code.sblock, Code.append, Code.comment, Code.empty, indentLine_zero,
      e1, e2, e3, e4, e5, e6]

theorem linesExtend_choicesFields (l : List Ty) (c : Code) :
    LinesExtend c (choicesFields l c) := by
  unfold choicesFields
  exact linesExtend_trans (linesExtend_append _ _)
    (linesExtend_foldl _ (fun c a => linesExtend_append _ _) _ _)

theorem linesExtend_cluster (c : Code) (s1 s2 : String) :
    LinesExtend c (((c.append "").comment s1).append s2) :=
  linesExtend_trans (linesExtend_append _ _)
    (linesExtend_trans (linesExtend_comment _ _) (linesExtend_append _ _))

theorem linesExtend_manifestConstantsBlock (o : Origin) (ps : List Prop_)
    (c : Code) : LinesExtend c (manifestConstantsBlock o ps c) := by
  unfold manifestConstantsBlock
  refine linesExtend_ite _ _ ?_ (linesExtend_refl _)
  exact linesExtend_trans (linesExtend_append _ _)
    (linesExtend_trans (linesExtend_comment _ _) (linesExtend_concat _ _))

theorem linesExtend_fromJsonBlock (fj ge ic it : Bool) (cn : String)
    (c : Code) : LinesExtend c (fromJsonBlock fj ge ic it cn c) := by
  unfold fromJsonBlock
  refine linesExtend_ite _ _ ?_ (linesExtend_refl _)
  exact
    linesExtend_trans (linesExtend_cluster _ _ _)
    (linesExtend_trans (linesExtend_ite _ _ (linesExtend_cluster _ _ _) (linesExtend_refl _))
    (linesExtend_trans (linesExtend_cluster _ _ _)
    (linesExtend_trans (linesExtend_ite _ _ (linesExtend_cluster _ _ _) (linesExtend_refl _))
    (linesExtend_trans (linesExtend_ite _ _ (linesExtend_cluster _ _ _) (linesExtend_refl _))
    (linesExtend_cluster _ _ _)))))

theorem linesExtend_fromClientBlock (fc : Bool) (vt cn : String) (c : Code) :
    LinesExtend c (fromClientBlock fc vt cn c) := by
  unfold fromClientBlock
  exact linesExtend_ite _ _ (linesExtend_cluster _ _ _) (linesExtend_refl _)

theorem structPrefix_extends (opts : CompilerOptions) (t : Ty)
    (isChoices isToplevel : Bool) (classname : String) :
    LinesExtend (structOpenBlock t.description)
      (structPrefix opts t isChoices isToplevel classname) := by
  unfold structPrefix
  exact
    linesExtend_trans (linesExtend_manifestConstantsBlock _ _ _)
    (linesExtend_trans (linesExtend_fromJsonBlock _ _ _ _ _ _)
    (linesExtend_trans (linesExtend_fromClientBlock _ _ _ _)
    (linesExtend_ite _ _ (linesExtend_cblock _ _) (linesExtend_refl _))))

theorem assembleObject_extends (opts : CompilerOptions) (t : Ty)
    (isToplevel : Bool) (classname : String) (ct : Code) (cap : Option Code) :
    LinesExtend (structOpenBlock t.description)
      (assembleObject opts t isToplevel classname ct cap) := by
  refine linesExtend_trans (structPrefix_extends opts t false isToplevel classname) ?_
  unfold assembleObject
  cases t.additionalProperties with
  | none =>
    dsimp only []
    exact
      linesExtend_trans (linesExtend_append _ _)
      (linesExtend_trans (linesExtend_cblock _ _)
      (linesExtend_trans (linesExtend_cblock _ _) (linesExtend_eblock _ _)))
  | some ap =>
    dsimp only []
    have hC2 : LinesExtend (structPrefix opts t false isToplevel classname)
        ((((structPrefix opts t false isToplevel classname).append "").cblock
          ct).cblock (GenerateFields t.properties)) :=
      linesExtend_trans (linesExtend_append _ _)
        (linesExtend_trans (linesExtend_cblock _ _) (linesExtend_cblock _ _))
    refine linesExtend_trans ?_ (linesExtend_eblock _ _)
    refine linesExtend_ite _ _ ?_ ?_
    · exact linesExtend_trans hC2 (linesExtend_append _ _)
    · exact linesExtend_trans hC2
        (linesExtend_trans (linesExtend_cblock _ _) (linesExtend_append _ _))

theorem assembleChoices_extends (opts : CompilerOptions) (t : Ty)
    (isToplevel : Bool) (classname : String) (cc : Code) :
    LinesExtend (structOpenBlock t.description)
      (assembleChoices opts t isToplevel classname cc) := by
  refine linesExtend_trans (structPrefix_extends opts t true isToplevel classname) ?_
  unfold assembleChoices
  exact
    linesExtend_trans (linesExtend_cblock _ _)
    (linesExtend_trans (linesExtend_choicesFields _ _) (linesExtend_eblock _ _))


theorem move_only_core (desc : String) (X : Code) (n : String)
    (hX : LinesExtend (structOpenBlock desc) X) :
    ∃ pre post, (X.substitute "classname" n).lines = pre ++
      ["  " ++ n ++ "(const " ++ n ++ "&) = delete;",
       "  " ++ n ++ "& operator=(const " ++ n ++ "&) = delete;",
       "  " ++ n ++ "(" ++ n ++ "&& rhs);",
       "  " ++ n ++ "& operator=(" ++ n ++ "&& rhs);"] ++ post := by
  obtain ⟨δ, hδ⟩ := hX
  rw [substitute_lines, hδ, (structOpenBlock_shape desc).1]
  refine ⟨((if desc ≠ "" then ["// " ++ desc] else []) ++
    ["struct %(classname)s \x7b", "  %(classname)s();",
     "  ~%(classname)s();"]).map (substLine "classname" n),
    δ.map (substLine "classname" n), ?_⟩
  simp only [List.map_append, List.map_cons, List.map_nil, List.append_assoc,
    substLine_copy_ctor, substLine_copy_assign, substLine_move_ctor,
    substLine_move_assign]

/-- C5: for every OBJECT or CHOICES type with no nested functions, the
emitted struct declaration contains deleted copy construction, deleted copy
assignment, declared move construction and declared move assignment, as
four consecutive lines in that order, regardless of the type's origin flags
and of the `generate_error_messages` / `modernised_enums` options. -/
theorem object_choices_move_only (opts : CompilerOptions) (t : Ty)
    (iT gT : Bool)
    (hpt : t.propertyType = PropertyType.object ∨
           t.propertyType = PropertyType.choices)
    (hfn : t.functions = []) (c : Code)
    (hok : GenerateType opts t iT gT = .ok c) :
    ∃ pre post, c.lines = pre ++
      ["  " ++ Classname (StripNamespace t.name) ++ "(const " ++
         Classname (StripNamespace t.name) ++ "&) = delete;",
       "  " ++ Classname (StripNamespace t.name) ++ "& operator=(const " ++
         Classname (StripNamespace t.name) ++ "&) = delete;",
       "  " ++ Classname (StripNamespace t.name) ++ "(" ++
         Classname (StripNamespace t.name) ++ "&& rhs);",
       "  " ++ Classname (StripNamespace t.name) ++ "& operator=(" ++
         Classname (StripNamespace t.name) ++ "&& rhs);"] ++ post := by
  obtain ⟨tn, u, pt, d, it, ev, ps, cs, ap, o, fs, r, b⟩ := t
  simp only [Ty.functions] at hfn
  subst hfn
  simp only [Ty.propertyType] at hpt
  simp only [Ty.name]
  rcases hpt with hpt | hpt <;> subst hpt <;>
    rw [GenerateType] at hok <;>
    rw [if_neg (show ¬(([] : List Func) ≠ []) by simp)] at hok <;>
    dsimp only [] at hok
  · -- OBJECT
    cases hct : GenerateTypesOfProps opts ps false false with
    | error e =>
      rw [hct] at hok
      simp [bind, Except.bind] at hok
    | ok ct =>
      rw [hct] at hok
      simp only [bind, Except.bind] at hok
      cases ap with
      | none =>
        dsimp only [] at hok
        simp only [pure, Except.pure, Except.ok.injEq] at hok
        subst hok
        exact move_only_core _ _ _ (assembleObject_extends _ _ _ _ _ _)
      | some ap2 =>
        dsimp only [] at hok
        by_cases hany : ap2.propertyType = PropertyType.any
        · rw [if_pos hany] at hok
          simp only [pure, Except.pure, Except.ok.injEq] at hok
          subst hok
          exact move_only_core _ _ _ (assembleObject_extends _ _ _ _ _ _)
        · rw [if_neg hany] at hok
          cases hcap : GenerateType opts ap2 false false with
          | error e =>
            rw [hcap] at hok
            simp [bind, Except.bind] at hok
          | ok capc =>
            rw [hcap] at hok
            simp only [bind, Except.bind, pure, Except.pure,
              Except.ok.injEq] at hok
            subst hok
            exact move_only_core _ _ _ (assembleObject_extends _ _ _ _ _ _)
  · -- CHOICES
    cases hcc : GenerateTypes opts cs false false with
    | error e =>
      rw [hcc] at hok
      simp [bind, Except.bind] at hok
    | ok cc =>
      rw [hcc] at hok
      simp only [bind, Except.bind, pure, Except.pure, Except.ok.injEq] at hok
      subst hok
      exact move_only_core _ _ _ (assembleChoices_extends _ _ _ _ _)

theorem object_choices_move_only_witness :
    ∃ pre post,
      ((assembleObject opts0 objMin false (Classname (StripNamespace "test.Obj"))
          Code.empty Option.none).substitute "classname"
        (Classname (StripNamespace "test.Obj"))).lines = pre ++
      ["  " ++ Classname (StripNamespace objMin.name) ++ "(const " ++
         Classname (StripNamespace objMin.name) ++ "&) = delete;",
       "  " ++ Classname (StripNamespace objMin.name) ++ "& operator=(const " ++
         Classname (StripNamespace objMin.name) ++ "&) = delete;",
       "  " ++ Classname (StripNamespace objMin.name) ++ "(" ++
         Classname (StripNamespace objMin.name) ++ "&& rhs);",
       "  " ++ Classname (StripNamespace objMin.name) ++ "& operator=(" ++
         Classname (StripNamespace objMin.name) ++ "&& rhs);"] ++ post := by
  have hok : GenerateType opts0 objMin false false = .ok
      ((assembleObject opts0 objMin false
          (Classname (StripNamespace "test.Obj")) Code.empty
          Option.none).substitute "classname"
        (Classname (StripNamespace "test.Obj"))) := by
    show GenerateType opts0
      (Ty.mk "test.Obj" "obj" .object "" none [] [] [] none origin0 [] "" false)
      false false = _
    rw [GenerateType, GenerateTypesOfProps]
    rfl
  exact object_choices_move_only opts0 objMin false false (Or.inl rfl) rfl _ hok


/-! ## Claim C6: choices fan-out -/

theorem append_indent (c : Code) (s : String) : (c.append s).indent = c.indent :=
  rfl

theorem comment_indent (c : Code) (s : String) :
    (c.comment s).indent = c.indent := rfl

theorem concat_indent (c o : Code) : (c.concat o).indent = c.indent := rfl

theorem manifestConstantsBlock_indent (o : Origin) (ps : List Prop_)
    (c : Code) : (manifestConstantsBlock o ps c).indent = c.indent := by
  unfold manifestConstantsBlock
  split <;> rfl

theorem fromJsonBlock_indent (fj ge ic it : Bool) (cn : String) (c : Code) :
    (fromJsonBlock fj ge ic it cn c).indent = c.indent := by
  unfold fromJsonBlock
  split
  · simp only [append_indent, comment_indent, apply_ite Code.indent, ite_self]
  · rfl

theorem fromClientBlock_indent (fc : Bool) (vt cn : String) (c : Code) :
    (fromClientBlock fc vt cn c).indent = c.indent := by
  unfold fromClientBlock
  split <;> rfl

theorem structPrefix_indent (opts : CompilerOptions) (t : Ty)
    (isChoices isToplevel : Bool) (classname : String) :
    (structPrefix opts t isChoices isToplevel classname).indent = 2 := by
  unfold structPrefix
  dsimp only []
  rw [show ∀ z : Code, (if t.origin.from_manifest_keys then
      z.cblock (GenerateParseFromDictionary t classname) else z).indent = z.indent
    from fun z => by split <;> simp [cblock_indent]]
  rw [fromClientBlock_indent, fromJsonBlock_indent, manifestConstantsBlock_indent,
    (structOpenBlock_shape t.description).2]

theorem generateTypes_nil (opts : CompilerOptions) (iT gT : Bool) :
    GenerateTypes opts [] iT gT = .ok Code.empty := by
  rw [GenerateTypes]
  rfl

theorem generateTypes_cons_inv (opts : CompilerOptions) (t : Ty)
    (rest : List Ty) (iT gT : Bool) (z : Code)
    (h : GenerateTypes opts (t :: rest) iT gT = .ok z) :
    ∃ ct cr, GenerateType opts t iT gT = .ok ct ∧
      GenerateTypes opts rest iT gT = .ok cr ∧
      z = (Code.empty.cblock ct).concat cr := by
  rw [GenerateTypes] at h
  try dsimp only [] at h
  cases hct : GenerateType opts t iT gT with
  | error e => rw [hct] at h; cases h
  | ok ct =>
    rw [hct] at h
    simp only [bind, Except.bind] at h
    cases hcr : GenerateTypes opts rest iT gT with
    | error e => rw [hcr] at h; cases h
    | ok cr =>
      rw [hcr] at h
      simp only [pure, Except.pure, Except.ok.injEq] at h
      exact ⟨ct, cr, rfl, rfl, h.symm⟩

theorem cblockLines_congr (ind : Nat) (x y : Code) (h : x.lines = y.lines) :
    cblockLines ind x = cblockLines ind y := by
  unfold cblockLines Code.render
  rw [h]

/-- C6: for every CHOICES type with alternative types `[X, Y]` (and no
nested functions), the emitted struct contains the recursively emitted
declarations of `X` and then `Y`, in that order, before the `// Choices:`
marker and exactly two optional-typed fields, one per alternative, named
`as_<alternative unix name>` — and no other ordinary property fields before
the closing brace. -/
theorem choices_fan_out (opts : CompilerOptions) (t : Ty) (iT gT : Bool)
    (x y : Ty) (c : Code)
    (hpt : t.propertyType = PropertyType.choices) (hfn : t.functions = [])
    (hch : t.choices = [x, y]) (hok : GenerateType opts t iT gT = .ok c) :
    ∃ pre dx dy,
      GenerateType opts x false false = .ok dx ∧
      GenerateType opts y false false = .ok dy ∧
      c.lines = (pre ++
        cblockLines 2 { lines := cblockLines 0 dx ++ cblockLines 0 dy, indent := 0 } ++
        ["  // Choices:",
         "  " ++ (GetCppTypeOpt x true ++ " as_" ++ x.unixName ++ ";"),
         "  " ++ (GetCppTypeOpt y true ++ " as_" ++ y.unixName ++ ";"),
         "\x7d;"]).map (substLine "classname" (Classname (StripNamespace t.name))) := by
  obtain ⟨tn, u, pt, d, it, ev, ps, cs, ap, o, fs, r, b⟩ := t
  simp only [Ty.functions] at hfn
  subst hfn
  simp only [Ty.propertyType] at hpt
  subst hpt
  simp only [Ty.choices] at hch
  subst hch
  simp only [Ty.name]
  rw [GenerateType] at hok
  rw [if_neg (show ¬(([] : List Func) ≠ []) by simp)] at hok
  dsimp only [] at hok
  cases hcc : GenerateTypes opts [x, y] false false with
  | error e =>
    rw [hcc] at hok
    simp [bind, Except.bind] at hok
  | ok cc =>
    rw [hcc] at hok
    simp only [bind, Except.bind, pure, Except.pure, Except.ok.injEq] at hok
    subst hok
    obtain ⟨dx, cr, hdx, hrest, hcceq⟩ := generateTypes_cons_inv _ _ _ _ _ _ hcc
    obtain ⟨dy, cnil, hdy, hnil, hcreq⟩ := generateTypes_cons_inv _ _ _ _ _ _ hrest
    rw [generateTypes_nil] at hnil
    cases hnil
    subst hcceq
    subst hcreq
    refine ⟨(structPrefix opts
      (Ty.mk tn u PropertyType.choices d it ev ps [x, y] ap o [] r b)
      true iT (Classname (StripNamespace tn))).lines, dx, dy, hdx, hdy, ?_⟩
    have hsp2 := structPrefix_indent opts
      (Ty.mk tn u PropertyType.choices d it ev ps [x, y] ap o [] r b)
      true iT (Classname (StripNamespace tn))
    have hcclines : ((Code.empty.cblock dx).concat
        ((Code.empty.cblock dy).concat Code.empty)).lines =
        cblockLines 0 dx ++ cblockLines 0 dy := by
      simp [Code.concat, cblock_lines, cblock_indent, Code.empty,
        map_indentLine_zero]
    rw [substitute_lines]
    unfold assembleChoices choicesFields
    dsimp only [Ty.choices, Ty.description]
    simp only [List.foldl_cons, List.foldl_nil]
    rw [show ∀ cd : Code, cd.eblock "\x7d;" =
        { lines := cd.lines ++ [indentLine (cd.indent - 2) "\x7d;"],
          indent := cd.indent - 2 } from fun cd => rfl]
    simp only [Code.append, cblock_lines]
    simp only [cblock_indent, hsp2]
    rw [cblockLines_congr 2 _
      { lines := cblockLines 0 dx ++ cblockLines 0 dy, indent := 0 } hcclines]
    have e1 : indentLine 2 "// Choices:" = "  // Choices:" := by decide
    have e2 : indentLine 2 (GetCppTypeOpt x true ++ " as_" ++ x.unixName ++ ";") =
        "  " ++ (GetCppTypeOpt x true ++ " as_" ++ x.unixName ++ ";") :=
      indentLine_two _ (append_right_ne_empty _ ";" (by decide))
    have e3 : indentLine 2 (GetCppTypeOpt y true ++ " as_" ++ y.unixName ++ ";") =
        "  " ++ (GetCppTypeOpt y true ++ " as_" ++ y.unixName ++ ";") :=
      indentLine_two _ (append_right_ne_empty _ ";" (by decide))
    simp [e1, e2, e3, indentLine_zero, List.append_assoc]


theorem choices_fan_out_witness :
    ∃ pre dx dy,
      GenerateType opts0 choiceX false false = .ok dx ∧
      GenerateType opts0 choiceY false false = .ok dy ∧
      ((assembleChoices opts0 choicesMin false
          (Classname (StripNamespace "test.Ch"))
          ((Code.empty.cblock Code.empty).concat
            ((Code.empty.cblock Code.empty).concat Code.empty))).substitute
        "classname" (Classname (StripNamespace "test.Ch"))).lines = (pre ++
        cblockLines 2 { lines := cblockLines 0 dx ++ cblockLines 0 dy, indent := 0 } ++
        ["  // Choices:",
         "  " ++ (GetCppTypeOpt choiceX true ++ " as_" ++ choiceX.unixName ++ ";"),
         "  " ++ (GetCppTypeOpt choiceY true ++ " as_" ++ choiceY.unixName ++ ";"),
         "\x7d;"]).map
        (substLine "classname" (Classname (StripNamespace choicesMin.name))) := by
  have hx : GenerateType opts0 choiceX false false = .ok Code.empty := by
    show GenerateType opts0
      (Ty.mk "test.X" "x" .string "" none [] [] [] none origin0 [] "" false)
      false false = _
    rw [GenerateType]
    all_goals rfl
  have hy : GenerateType opts0 choiceY false false = .ok Code.empty := by
    show GenerateType opts0
      (Ty.mk "test.Y" "y" .integer "" none [] [] [] none origin0 [] "" false)
      false false = _
    rw [GenerateType]
    all_goals first
    | rfl
    | decide
  have hcc : GenerateTypes opts0 [choiceX, choiceY] false false = .ok
      ((Code.empty.cblock Code.empty).concat
        ((Code.empty.cblock Code.empty).concat Code.empty)) := by
    rw [GenerateTypes]
    try dsimp only []
    rw [hx]
    simp only [bind, Except.bind]
    rw [GenerateTypes]
    try dsimp only []
    rw [hy]
    simp only [bind, Except.bind]
    rw [generateTypes_nil]
    rfl
  have hok : GenerateType opts0 choicesMin false false = .ok
      ((assembleChoices opts0 choicesMin false
          (Classname (StripNamespace "test.Ch"))
          ((Code.empty.cblock Code.empty).concat
            ((Code.empty.cblock Code.empty).concat Code.empty))).substitute
        "classname" (Classname (StripNamespace "test.Ch"))) := by
    show GenerateType opts0
      (Ty.mk "test.Ch" "ch" .choices "" none [] [] [choiceX, choiceY] none
        origin0 [] "" false) false false = _
    rw [GenerateType]
    try dsimp only []
    rw [hcc]
    rfl
  exact choices_fan_out opts0 choicesMin false false choiceX choiceY _
    rfl rfl rfl hok

/-! ## Claims C1 and C2: the field-dependency resolver -/

/-- Every `lookupType` hit is one of the namespace's type values. -/
theorem lookupType_mem_typeValues (ns : Namespace) (k : String) (d : Ty)
    (h : lookupType ns k = some d) : d ∈ typeValues ns := by
  unfold lookupType at h
  obtain ⟨kv, hfind, hsnd⟩ := Option.map_eq_some'.mp h
  exact hsnd ▸ List.mem_map_of_mem Prod.snd (List.mem_of_find?_eq_some hfind)

/-- A nodup list of values drawn from `tv` is no longer than `tv`. -/
theorem nodup_subset_length_le (l tv : List Ty) (hn : l.Nodup)
    (hs : ∀ x ∈ l, x ∈ tv) : l.length ≤ tv.length :=
  (hn.subperm fun _ hx => hs _ hx).length_le

/-- Appending a fresh element keeps a list nodup. -/
theorem nodup_concat (l : List Ty) (t : Ty) (h : l.Nodup) (ht : t ∉ l) :
    (l ++ [t]).Nodup := by
  rw [List.nodup_append]
  exact ⟨h, List.nodup_singleton t, by simpa using ht⟩

/-- The index of a freshly appended element is the old length. -/
theorem indexOf_concat_self (l : List Ty) (t : Ty) (ht : t ∉ l) :
    (l ++ [t]).indexOf t = l.length := by
  induction l with
  | nil => simp
  | cons a l ih =>
    have hne : t ≠ a := fun he => ht (he ▸ List.mem_cons_self a l)
    have hnl : t ∉ l := fun hm => ht (List.mem_cons_of_mem a hm)
    rw [List.cons_append, List.indexOf_cons_ne _ (Ne.symm hne), ih hnl,
      List.length_cons]

/-- A relational chain from `a` whose list ends at `b` yields transitive
reachability of `b` from `a`. -/
theorem chain_transGen {R : Ty → Ty → Prop} :
    ∀ (l : List Ty) (a b : Ty), List.Chain R a (l ++ [b]) →
      Relation.TransGen R a b := by
  intro l
  induction l with
  | nil =>
    intro a b h
    rw [List.nil_append, List.chain_cons] at h
    exact Relation.TransGen.single h.1
  | cons x xs ih =>
    intro a b h
    rw [List.cons_append, List.chain_cons] at h
    exact Relation.TransGen.head h.1 (ih x b h.2)

/-- A `Chain'` over `l ++ [t]` in which `t` already occurs in `l` contains a
cycle through `t`. -/
theorem chain_mem_cycle {R : Ty → Ty → Prop} {l : List Ty} {t : Ty}
    (hc : List.Chain' R (l ++ [t])) (ht : t ∈ l) : Relation.TransGen R t t := by
  obtain ⟨l₁, l₂, rfl⟩ := List.append_of_mem ht
  have hsfx : (t :: (l₂ ++ [t])) <:+ ((l₁ ++ t :: l₂) ++ [t]) := by
    refine ⟨l₁, ?_⟩
    simp
  have hc2 : List.Chain' R (t :: (l₂ ++ [t])) := hc.suffix hsfx
  exact chain_transGen l₂ t t hc2

/-- Extend a chain ending at `a` by one `R`-step to `b`. -/
theorem chain_concat_edge {R : Ty → Ty → Prop} {l : List Ty} {a b : Ty}
    (hc : List.Chain' R (l ++ [a])) (hr : R a b) :
    List.Chain' R ((l ++ [a]) ++ [b]) := by
  refine List.Chain'.append hc (List.chain'_singleton b) ?_
  intro x hx y hy
  rw [List.getLast?_concat] at hx
  simp at hx hy
  subst hx; subst hy
  exact hr

/-- Invariant of the resolver's accumulator: no duplicates, only types of
the namespace, dependency-closed. -/
def GoodAcc (ns : Namespace) (acc : List Ty) : Prop :=
  acc.Nodup ∧ (∀ x ∈ acc, x ∈ typeValues ns) ∧ DepClosed ns acc

theorem goodAcc_nil (ns : Namespace) : GoodAcc ns [] := by
  refine ⟨List.nodup_nil, ?_, ?_⟩ <;> intro x hx <;> simp at hx

/-- Appending a type whose dependencies are already in a good accumulator
keeps it good. -/
theorem goodAcc_concat (ns : Namespace) (acc : List Ty) (t : Ty)
    (hg : GoodAcc ns acc) (ht : t ∉ acc) (htv : t ∈ typeValues ns)
    (hdeps : ∀ d, RefEdge ns t d → d ∈ acc) : GoodAcc ns (acc ++ [t]) := by
  obtain ⟨hnd, hsub, hdc⟩ := hg
  refine ⟨nodup_concat acc t hnd ht, ?_, ?_⟩
  · intro x hx
    rcases List.mem_append.mp hx with h | h
    · exact hsub x h
    · have hx' : x = t := by simpa using h
      exact hx' ▸ htv
  · intro x hx d hedge
    rcases List.mem_append.mp hx with hxa | hxt
    · obtain ⟨hd, hlt⟩ := hdc x hxa d hedge
      refine ⟨List.mem_append_left _ hd, ?_⟩
      rw [List.indexOf_append_of_mem hd, List.indexOf_append_of_mem hxa]
      exact hlt
    · have hx' : x = t := by simpa using hxt
      subst hx'
      have hd : d ∈ acc := hdeps d hedge
      refine ⟨List.mem_append_left _ hd, ?_⟩
      rw [List.indexOf_append_of_mem hd, indexOf_concat_self acc x ht]
      exact List.indexOf_lt_length.mpr hd

/-- In a dependency-closed list, reachability strictly decreases the index. -/
theorem depClosed_transGen (ns : Namespace) (l : List Ty)
    (hdc : DepClosed ns l) (t d : Ty) (ht : t ∈ l) (h : Reaches ns t d) :
    d ∈ l ∧ l.indexOf d < l.indexOf t := by
  have h' : Relation.TransGen (RefEdge ns) t d := h
  clear h
  induction h' with
  | single hr => exact hdc t ht _ hr
  | tail _ hbc ih =>
    obtain ⟨hb, hlt⟩ := ih
    obtain ⟨hc, hlt2⟩ := hdc _ hb _ hbc
    exact ⟨hc, lt_trans hlt2 hlt⟩

theorem foldlM_cons_eq {α β : Type} (f : β → α → Except GenError β) (b : β)
    (a : α) (l : List α) :
    List.foldlM f b (a :: l) = f b a >>= fun s => List.foldlM f s l := rfl

theorem except_bind_ok {α β : Type} (x : α) (f : α → Except GenError β) :
    ((Except.ok x : Except GenError α) >>= f) = f x := rfl

theorem except_bind_error {α β : Type} (e : GenError)
    (f : α → Except GenError β) :
    ((Except.error e : Except GenError α) >>= f) = Except.error e := rfl

/-- The resolver failed with the structured circular-dependency error: the
message renders a traversal path that revisits `t'`, every listed type is a
namespace type, and `t'` really lies on a REF cycle. -/
def CircErr (ns : Namespace) (r : Except GenError (List Ty)) : Prop :=
  ∃ q t', r = .error (.circular (cycleMessage (q ++ [t']))) ∧ t' ∈ q ∧
    t' ∈ typeValues ns ∧ Reaches ns t' t'

/-- One successful step of the property fold: the accumulator stays good,
only grows, and now holds the property's same-namespace REF target. -/
def StepOk (ns : Namespace) (p : Prop_) (acc acc' : List Ty) : Prop :=
  GoodAcc ns acc' ∧ (∃ δ, acc' = acc ++ δ) ∧
    (isSameNsRef ns p = true →
      ∀ d, lookupType ns p.ty.refType = some d → d ∈ acc')

/-- Folding a step that either raises the structured circular error or
extends the accumulator: the whole fold does the same, and on success the
targets of every processed same-namespace REF property are present. -/
theorem foldlM_step_fold (ns : Namespace)
    (f : List Ty → Prop_ → Except GenError (List Ty)) :
    ∀ ps : List Prop_,
      (∀ p ∈ ps, ∀ acc, GoodAcc ns acc →
        CircErr ns (f acc p) ∨
          ∃ acc', f acc p = Except.ok acc' ∧ StepOk ns p acc acc') →
      ∀ acc₀, GoodAcc ns acc₀ →
        CircErr ns (List.foldlM f acc₀ ps) ∨
        ∃ acc₁, List.foldlM f acc₀ ps = Except.ok acc₁ ∧ GoodAcc ns acc₁ ∧
          (∃ δ, acc₁ = acc₀ ++ δ) ∧
          ∀ p ∈ ps, isSameNsRef ns p = true →
            ∀ d, lookupType ns p.ty.refType = some d → d ∈ acc₁ := by
  intro ps
  induction ps with
  | nil =>
    intro _ acc₀ hg
    exact Or.inr ⟨acc₀, rfl, hg, ⟨[], by simp⟩,
      fun p hp => absurd hp (List.not_mem_nil p)⟩
  | cons p ps ih =>
    intro hstep acc₀ hg
    rcases hstep p (List.mem_cons_self p ps) acc₀ hg with
      herr | ⟨acc', heq, hg', ⟨δ', hδ'⟩, htgt'⟩
    · left
      obtain ⟨q, t', he, hq, htv', hr⟩ := herr
      refine ⟨q, t', ?_, hq, htv', hr⟩
      rw [foldlM_cons_eq, he, except_bind_error]
    · rcases ih (fun p' hp' => hstep p' (List.mem_cons_of_mem p hp')) acc' hg'
        with herr₂ | ⟨acc₁, heq₁, hg₁, ⟨δ₁, hδ₁⟩, htgt₁⟩
      · left
        obtain ⟨q, t', he, hq, htv', hr⟩ := herr₂
        refine ⟨q, t', ?_, hq, htv', hr⟩
        rw [foldlM_cons_eq, heq, except_bind_ok]
        exact he
      · right
        refine ⟨acc₁, ?_, hg₁,
          ⟨δ' ++ δ₁, by rw [hδ₁, hδ', List.append_assoc]⟩, ?_⟩
        · rw [foldlM_cons_eq, heq, except_bind_ok]
          exact heq₁
        · intro p' hp' hsn d hd
          rcases List.mem_cons.mp hp' with hpe | hp''
          · subst hpe
            have hda : d ∈ acc' := htgt' hsn d hd
            rw [hδ₁]
            exact List.mem_append_left _ hda
          · exact htgt₁ p' hp'' hsn d hd

/-- The heart of claims C1 and C2: with enough fuel, on a well-formed
namespace, `ExpandType` either raises the structured circular error (and a
real REF cycle exists) or succeeds, extending the accumulator to a good one
that contains the expanded type. -/
theorem expandType_spec (ns : Namespace) (hwf : WellFormedNS ns) :
    ∀ fuel path t acc,
      (typeValues ns).length < fuel + path.length →
      path.Nodup →
      (∀ x ∈ path, x ∈ typeValues ns) →
      t ∈ typeValues ns →
      List.Chain' (RefEdge ns) (path ++ [t]) →
      GoodAcc ns acc →
      CircErr ns (ExpandType ns fuel path t acc) ∨
        ∃ acc', ExpandType ns fuel path t acc = Except.ok acc' ∧
          GoodAcc ns acc' ∧ (∃ δ, acc' = acc ++ δ) ∧ t ∈ acc' := by
  intro fuel
  induction fuel with
  | zero =>
    intro path t acc hbound hnd hsub _ _ _
    exfalso
    have hle := nodup_subset_length_le path (typeValues ns) hnd hsub
    omega
  | succ fuel ih =>
    intro path t acc hbound hnd hsub htv hch hg
    by_cases hmem : t ∈ path
    · left
      refine ⟨path, t, ?_, hmem, htv, chain_mem_cycle hch hmem⟩
      rw [ExpandType_succ, if_pos hmem]
    · have hstep : ∀ p ∈ t.properties, ∀ a, GoodAcc ns a →
          CircErr ns (expandStep ns (ExpandType ns fuel (path ++ [t])) a p) ∨
            ∃ a', expandStep ns (ExpandType ns fuel (path ++ [t])) a p =
                Except.ok a' ∧ StepOk ns p a a' := by
        intro p hp a hga
        by_cases hsn : isSameNsRef ns p = true
        · have hres : (lookupType ns p.ty.refType).isSome = true :=
            hwf.2.2 t htv p hp hsn
          obtain ⟨d, hd⟩ := Option.isSome_iff_exists.mp hres
          have hEq : expandStep ns (ExpandType ns fuel (path ++ [t])) a p =
              ExpandType ns fuel (path ++ [t]) d a := by
            unfold expandStep
            rw [if_pos hsn, hd]
          have hbound' : (typeValues ns).length < fuel + (path ++ [t]).length := by
            rw [List.length_append]
            simp only [List.length_singleton]
            omega
          have hnd' : (path ++ [t]).Nodup := nodup_concat path t hnd hmem
          have hsub' : ∀ x ∈ path ++ [t], x ∈ typeValues ns := by
            intro x hx
            rcases List.mem_append.mp hx with h | h
            · exact hsub x h
            · have hx' : x = t := by simpa using h
              exact hx' ▸ htv
          have hdtv : d ∈ typeValues ns := lookupType_mem_typeValues ns _ d hd
          have hch' : List.Chain' (RefEdge ns) ((path ++ [t]) ++ [d]) :=
            chain_concat_edge hch ⟨p, hp, hsn, hd⟩
          rcases ih (path ++ [t]) d a hbound' hnd' hsub' hdtv hch' hga with
            herr | ⟨a', heq, hg', hext, hdm⟩
          · left
            rw [hEq]
            exact herr
          · right
            refine ⟨a', by rw [hEq]; exact heq, hg', hext, ?_⟩
            intro _ d' hd'
            have h2 := hd.symm.trans hd'
            injection h2 with h3
            subst h3
            exact hdm
        · right
          refine ⟨a, ?_, hga, ⟨[], by simp⟩, fun h => absurd h hsn⟩
          unfold expandStep
          rw [if_neg hsn]
          rfl
      rw [ExpandType_succ, if_neg hmem]
      rcases foldlM_step_fold ns (expandStep ns (ExpandType ns fuel (path ++ [t])))
        t.properties hstep acc hg with herr | ⟨acc₁, heq₁, hg₁, ⟨δ₁, hδ₁⟩, htgt₁⟩
      · left
        obtain ⟨q, t', he, hq, htv', hr⟩ := herr
        refine ⟨q, t', ?_, hq, htv', hr⟩
        rw [he, except_bind_error]
      · by_cases hta : t ∈ acc₁
        · refine Or.inr ⟨acc₁, ?_, hg₁, ⟨δ₁, hδ₁⟩, hta⟩
          rw [heq₁, except_bind_ok]
          show (pure (if t ∈ acc₁ then acc₁ else acc₁ ++ [t]) :
            Except GenError (List Ty)) = Except.ok acc₁
          rw [if_pos hta]
          rfl
        · refine Or.inr ⟨acc₁ ++ [t], ?_, ?_,
            ⟨δ₁ ++ [t], by rw [hδ₁, List.append_assoc]⟩, by simp⟩
          · rw [heq₁, except_bind_ok]
            show (pure (if t ∈ acc₁ then acc₁ else acc₁ ++ [t]) :
              Except GenError (List Ty)) = Except.ok (acc₁ ++ [t])
            rw [if_neg hta]
            rfl
          · refine goodAcc_concat ns acc₁ t hg₁ hta htv ?_
            rintro d ⟨p, hp, hsn, hd⟩
            exact htgt₁ p hp hsn d hd

/-- Folding a root step that either raises the structured circular error or
extends the accumulator to a good one containing the root: the whole fold
does the same, and on success every processed root is present. -/
theorem foldlM_root_fold (ns : Namespace)
    (f : List Ty → Ty → Except GenError (List Ty))
    (hstep : ∀ r acc, r ∈ typeValues ns → GoodAcc ns acc →
      CircErr ns (f acc r) ∨
        ∃ acc', f acc r = Except.ok acc' ∧ GoodAcc ns acc' ∧
          (∃ δ, acc' = acc ++ δ) ∧ r ∈ acc') :
    ∀ ts acc₀, (∀ x ∈ ts, x ∈ typeValues ns) → GoodAcc ns acc₀ →
      CircErr ns (List.foldlM f acc₀ ts) ∨
      ∃ order, List.foldlM f acc₀ ts = Except.ok order ∧ GoodAcc ns order ∧
        (∃ δ, order = acc₀ ++ δ) ∧ ∀ x ∈ ts, x ∈ order := by
  intro ts
  induction ts with
  | nil =>
    intro acc₀ _ hg
    exact Or.inr ⟨acc₀, rfl, hg, ⟨[], by simp⟩,
      fun x hx => absurd hx (List.not_mem_nil x)⟩
  | cons r ts ih =>
    intro acc₀ hsub hg
    rcases hstep r acc₀ (hsub r (List.mem_cons_self r ts)) hg with
      herr | ⟨acc₁, heq, hg₁, ⟨δ₁, hδ₁⟩, hrmem⟩
    · left
      obtain ⟨q, t', he, hq, htv', hr⟩ := herr
      refine ⟨q, t', ?_, hq, htv', hr⟩
      rw [foldlM_cons_eq, he, except_bind_error]
    · rcases ih acc₁ (fun x hx => hsub x (List.mem_cons_of_mem r hx)) hg₁ with
        herr₂ | ⟨order, heq₂, hgO, ⟨δ₂, hδ₂⟩, hmemO⟩
      · left
        obtain ⟨q, t', he, hq, htv', hr⟩ := herr₂
        refine ⟨q, t', ?_, hq, htv', hr⟩
        rw [foldlM_cons_eq, heq, except_bind_ok]
        exact he
      · right
        refine ⟨order, ?_, hgO,
          ⟨δ₁ ++ δ₂, by rw [hδ₂, hδ₁, List.append_assoc]⟩, ?_⟩
        · rw [foldlM_cons_eq, heq, except_bind_ok]
          exact heq₂
        · intro x hx
          rcases List.mem_cons.mp hx with hxe | hx'
          · subst hxe
            rw [hδ₂]
            exact List.mem_append_left _ hrmem
          · exact hmemO x hx'

/-- `_FieldDependencyOrder` on a well-formed namespace either raises the
structured circular-dependency error — in which case a same-namespace REF
cycle exists — or returns a good (nodup, dependency-closed) ordering that
contains every type of the namespace. -/
theorem fdo_spec (ns : Namespace) (hwf : WellFormedNS ns) :
    CircErr ns (FieldDependencyOrder ns) ∨
    ∃ order, FieldDependencyOrder ns = Except.ok order ∧ GoodAcc ns order ∧
      ∀ x ∈ typeValues ns, x ∈ order := by
  have hlen : (typeValues ns).length = ns.types.length := by
    unfold typeValues
    exact List.length_map _ _
  have hstep : ∀ r acc, r ∈ typeValues ns → GoodAcc ns acc →
      CircErr ns (ExpandType ns (ns.types.length + 1) [] r acc) ∨
        ∃ acc', ExpandType ns (ns.types.length + 1) [] r acc = Except.ok acc' ∧
          GoodAcc ns acc' ∧ (∃ δ, acc' = acc ++ δ) ∧ r ∈ acc' := by
    intro r acc hr hg
    refine expandType_spec ns hwf (ns.types.length + 1) [] r acc ?_
      List.nodup_nil (fun x hx => absurd hx (List.not_mem_nil x)) hr
      (by simp) hg
    simp only [List.length_nil]
    omega
  have h := foldlM_root_fold ns
    (fun acc t => ExpandType ns (ns.types.length + 1) [] t acc) hstep
    (typeValues ns) [] (fun x hx => hx) (goodAcc_nil ns)
  rcases h with herr | ⟨order, heq, hg, _, hmem⟩
  · left
    unfold FieldDependencyOrder
    exact herr
  · right
    refine ⟨order, ?_, hg, hmem⟩
    unfold FieldDependencyOrder
    exact heq

/-- C1. For every namespace whose same-namespace REF-property graph is
acyclic (and whose model is well-formed, as the parsing stage promises),
`_FieldDependencyOrder` returns an ordered sequence containing every type
of the namespace exactly once, and every same-namespace type `d` reachable
from a type `t` via a chain of REF properties appears strictly before `t`
in that sequence. -/
theorem field_dependency_order_correct (ns : Namespace)
    (hwf : WellFormedNS ns) (hac : Acyclic ns) :
    ∃ order, FieldDependencyOrder ns = Except.ok order ∧ order.Nodup ∧
      (∀ t, t ∈ order ↔ t ∈ typeValues ns) ∧
      ∀ t d, t ∈ typeValues ns → Reaches ns t d →
        order.indexOf d < order.indexOf t := by
  rcases fdo_spec ns hwf with herr | ⟨order, heq, hg, hmem⟩
  · obtain ⟨q, t', _, _, _, hr⟩ := herr
    exact absurd hr (hac t')
  · refine ⟨order, heq, hg.1,
      fun t => ⟨fun h => hg.2.1 t h, fun h => hmem t h⟩, ?_⟩
    intro t d ht hreach
    exact (depClosed_transGen ns order hg.2.2 t d (hmem t ht) hreach).2

theorem wf_nsCD : WellFormedNS nsCD := by
  refine ⟨?_, ?_, ?_⟩ <;> decide

theorem refEdge_nsCD_target {a b : Ty} (h : RefEdge nsCD a b) :
    b = tyC ∨ b = tyD := by
  obtain ⟨p, _, _, hl⟩ := h
  have hb := lookupType_mem_typeValues nsCD _ _ hl
  have htv : typeValues nsCD = [tyC, tyD] := rfl
  rw [htv] at hb
  simpa using hb

theorem no_refEdge_tyD (b : Ty) : ¬ RefEdge nsCD tyD b := by
  rintro ⟨p, hp, _, _⟩
  have hnil : Ty.properties tyD = [] := rfl
  rw [hnil] at hp
  simp at hp

theorem refEdge_tyC_target {b : Ty} (h : RefEdge nsCD tyC b) : b = tyD := by
  obtain ⟨p, hp, _, hl⟩ := h
  have hprops : Ty.properties tyC = [refTo "test.D"] := rfl
  rw [hprops] at hp
  have hpeq : p = refTo "test.D" := by simpa using hp
  subst hpeq
  have h3 := hl.symm.trans
    (show lookupType nsCD (Prop_.ty (refTo "test.D")).refType = some tyD
      from rfl)
  exact Option.some.inj h3

/-- First-step decomposition of transitive reachability. -/
theorem transGen_cases_head {R : Ty → Ty → Prop} {a b : Ty}
    (h : Relation.TransGen R a b) :
    R a b ∨ ∃ c, R a c ∧ Relation.TransGen R c b := by
  obtain ⟨c, hac, hcb⟩ := Relation.TransGen.head'_iff.mp h
  rcases Relation.ReflTransGen.cases_head hcb with rfl | ⟨e, hce, heb⟩
  · exact Or.inl hac
  · exact Or.inr ⟨c, hac, Relation.TransGen.head'_iff.mpr ⟨e, hce, heb⟩⟩

theorem acyclic_nsCD : Acyclic nsCD := by
  intro t h
  have h' : Relation.TransGen (RefEdge nsCD) t t := h
  rcases transGen_cases_head h' with hr | ⟨c, hc, htc⟩
  · rcases refEdge_nsCD_target hr with rfl | rfl
    · exact absurd (refEdge_tyC_target hr) (by decide)
    · exact no_refEdge_tyD tyD hr
  · rcases refEdge_nsCD_target hc with rfl | rfl
    · rcases transGen_cases_head htc with hr2 | ⟨e, he, het⟩
      · have ht' : t = tyD := refEdge_tyC_target hr2
        subst ht'
        exact no_refEdge_tyD tyC hc
      · have he' : e = tyD := refEdge_tyC_target he
        subst he'
        rcases transGen_cases_head het with hr3 | ⟨g, hg3, _⟩
        · exact no_refEdge_tyD t hr3
        · exact no_refEdge_tyD g hg3
    · rcases transGen_cases_head htc with hr3 | ⟨g, hg3, _⟩
      · exact no_refEdge_tyD t hr3
      · exact no_refEdge_tyD g hg3

/-- C1 witness: on the acyclic example namespace `nsCD` (`C` with one REF
property to `D`), the resolver succeeds with a nodup ordering of
`\x7bC, D\x7d` in which every REF dependency comes strictly earlier. -/
theorem field_dependency_order_correct_witness :
    WellFormedNS nsCD ∧ Acyclic nsCD ∧
      ∃ order, FieldDependencyOrder nsCD = Except.ok order ∧ order.Nodup ∧
        (∀ t, t ∈ order ↔ t ∈ typeValues nsCD) ∧
        ∀ t d, t ∈ typeValues nsCD → Reaches nsCD t d →
          order.indexOf d < order.indexOf t :=
  ⟨wf_nsCD, acyclic_nsCD,
    field_dependency_order_correct nsCD wf_nsCD acyclic_nsCD⟩

theorem wf_nsAB : WellFormedNS nsAB := by
  refine ⟨?_, ?_, ?_⟩ <;> decide

/-- C2. On every well-formed namespace, `_FieldDependencyOrder` raises the
circular-dependency error if and only if some namespace type lies on a
same-namespace REF-property cycle, and the error's message renders a
traversal path that ends by revisiting a type already on it.  Concretely,
for the namespace with types `A` (one REF property to `B`) and `B` (one REF
property to `A`), generation fails with exactly the message listing the
cycle `A, B, A` in visitation order — the cycle list containing both `A`
and `B` and the repeated type. -/
theorem cycle_detection_iff :
    (∀ ns : Namespace, WellFormedNS ns →
      (((∃ m, FieldDependencyOrder ns = .error (.circular m)) ↔
          ∃ t ∈ typeValues ns, Reaches ns t t) ∧
        ∀ m, FieldDependencyOrder ns = .error (.circular m) →
          ∃ q t', m = cycleMessage (q ++ [t']) ∧ t' ∈ q)) ∧
    Generate nsAB = .error (.circular
      "Illegal circular dependency via cycle test.A, test.B, test.A") ∧
    "Illegal circular dependency via cycle test.A, test.B, test.A" =
      cycleMessage [tyA, tyB, tyA] := by
  refine ⟨?_, by decide, by decide⟩
  intro ns hwf
  rcases fdo_spec ns hwf with herr | ⟨order, heq, hg, hmem⟩
  · obtain ⟨q, t', he, hq, htv, hr⟩ := herr
    constructor
    · exact ⟨fun _ => ⟨t', htv, hr⟩, fun _ => ⟨_, he⟩⟩
    · intro m hm
      have h2 := he.symm.trans hm
      injection h2 with h3
      injection h3 with h4
      exact ⟨q, t', h4.symm, hq⟩
  · constructor
    · constructor
      · rintro ⟨m, hm⟩
        rw [heq] at hm
        exact absurd hm (by simp)
      · rintro ⟨t, ht, hr⟩
        exact absurd (depClosed_transGen ns order hg.2.2 t t (hmem t ht) hr).2
          (lt_irrefl _)
    · intro m hm
      rw [heq] at hm
      exact absurd hm (by simp)

/-- C2 witness: `nsAB` is well-formed, and by the theorem's equivalence its
concrete resolver failure corresponds to the real cycle through `A`. -/
theorem cycle_detection_iff_witness :
    WellFormedNS nsAB ∧
      (∃ m, FieldDependencyOrder nsAB = .error (.circular m)) ∧
      ∃ t ∈ typeValues nsAB, Reaches nsAB t t := by
  have h := (cycle_detection_iff.1 nsAB wf_nsAB).1
  have hm : ∃ m, FieldDependencyOrder nsAB = .error (.circular m) :=
    ⟨"Illegal circular dependency via cycle test.A, test.B, test.A", by decide⟩
  exact ⟨wf_nsAB, hm, h.mp hm⟩

end HGen
